import Mathlib

set_option maxRecDepth 100000

/-!
# Verification of the Tuya camera protocol engine

Shallow embedding of the protocol engine of the `homebridge-tuyacam`
repository: the binary packet codec (`buildPacket`, `handleData`,
`handleStreamData`), the two CRC-32 implementations (`calculateCRC`,
`calculateCRC32`), the AES-128-ECB/PKCS#7 cipher layer
(`encryptPayload`/`decryptPayload`, Node's `crypto` semantics),
MD5-based stream-session-key derivation, command/response correlation
and the motion-event lifecycle.

Bytes are modelled as `Nat` values below 256; buffers as `List Nat`;
32-bit machine arithmetic as `Nat` arithmetic where every operation
used (`^^^`, `&&&`, `>>>`) keeps values below `2 ^ 32`.  Fallible
operations (out-of-range `Buffer.readUInt32BE`, a failing
`decipher.final`) are modelled with `Option`.
-/

/-! ## Byte-buffer primitives -/

/-- Big-endian 4-byte encoding of a 32-bit value, as produced by
`Buffer.writeUInt32BE`. -/
def be32 (n : Nat) : List Nat :=
  [(n >>> 24) % 256, (n >>> 16) % 256, (n >>> 8) % 256, n % 256]

/-- Big-endian 32-bit read at byte offset `i`, as `Buffer.readUInt32BE(i)`
on an in-range offset. -/
def be32At (l : List Nat) (i : Nat) : Nat :=
  l.getD i 0 * 2 ^ 24 + l.getD (i + 1) 0 * 2 ^ 16 +
    l.getD (i + 2) 0 * 2 ^ 8 + l.getD (i + 3) 0

/-- The fixed 4-byte magic header `000055aa`. -/
def magicHeader : List Nat := [0x00, 0x00, 0x55, 0xaa]

/-- The fixed 4-byte magic footer `0000aa55`. -/
def magicFooter : List Nat := [0x00, 0x00, 0xaa, 0x55]

/-! ## Checksum engine

Two independent CRC-32 implementations appear in the source: a bitwise
one on the control connection (`TuyaDevice.calculateCRC`) and a
table-driven one on the stream connection
(`TuyaStreamDecoder.calculateCRC32` with `getCRCTable`).  Both are
modelled on `Nat`; the JavaScript `>>> 0` coercions are the identity on
the unsigned 32-bit values the model maintains, and `~crc >>> 0` is
`crc ^^^ 0xFFFFFFFF`. -/

/-- One iteration of the inner bit loop of `TuyaDevice.calculateCRC`:
`crc = (crc & 1) ? (crc >>> 1) ^ 0xEDB88320 : crc >>> 1`. -/
def crcBitStep (crc : Nat) : Nat :=
  if crc &&& 1 = 1 then (crc >>> 1) ^^^ 0xEDB88320 else crc >>> 1

/-- Eight iterations of the inner bit loop. -/
def crcRounds8 (crc : Nat) : Nat :=
  crcBitStep (crcBitStep (crcBitStep (crcBitStep
    (crcBitStep (crcBitStep (crcBitStep (crcBitStep crc)))))))

/-- One byte of the bitwise loop of `TuyaDevice.calculateCRC`:
`crc ^= byte` followed by the eight bit iterations. -/
def crcByteStep (crc byte : Nat) : Nat :=
  crcRounds8 (crc ^^^ byte)

/-- `TuyaDevice.calculateCRC` (control connection, bitwise): the 32-bit
CRC value before the source wraps it in a 4-byte big-endian buffer. -/
def calculateCRC (data : List Nat) : Nat :=
  (data.foldl crcByteStep 0xFFFFFFFF) ^^^ 0xFFFFFFFF

/-- One iteration of the table-building bit loop of
`TuyaStreamDecoder.getCRCTable`:
`c = (c & 1) ? 0xEDB88320 ^ (c >>> 1) : c >>> 1`. -/
def crcTableBitStep (c : Nat) : Nat :=
  if c &&& 1 = 1 then 0xEDB88320 ^^^ (c >>> 1) else c >>> 1

/-- One entry of the CRC table: eight table-building bit iterations
starting from the index. -/
def crcTableEntry (i : Nat) : Nat :=
  crcTableBitStep (crcTableBitStep (crcTableBitStep (crcTableBitStep
    (crcTableBitStep (crcTableBitStep (crcTableBitStep (crcTableBitStep i)))))))

/-- `TuyaStreamDecoder.getCRCTable`: the 256-entry lookup table. -/
def getCRCTable : List Nat :=
  (List.range 256).map crcTableEntry

/-- One byte of the table-driven loop of
`TuyaStreamDecoder.calculateCRC32`:
`crc = (crc >>> 8) ^ table[(crc ^ byte) & 0xFF]`. -/
def crcTableByteStep (crc byte : Nat) : Nat :=
  (crc >>> 8) ^^^ getCRCTable.getD ((crc ^^^ byte) &&& 0xFF) 0

/-- `TuyaStreamDecoder.calculateCRC32` (stream connection,
table-driven): the 32-bit CRC value before big-endian serialization. -/
def calculateCRC32 (data : List Nat) : Nat :=
  (data.foldl crcTableByteStep 0xFFFFFFFF) ^^^ 0xFFFFFFFF

/-! ### CRC equivalence: the table-driven implementation agrees with the
bitwise one.  The key algebraic fact is that the eight-fold bit step
splits the state into its high 24 bits (which merely shift down) and
its low byte (which indexes the table). -/

theorem shiftRight_one_xor (a b : Nat) :
    (a ^^^ b) >>> 1 = (a >>> 1) ^^^ (b >>> 1) := by
  apply Nat.eq_of_testBit_eq
  intro i
  simp [Nat.testBit_shiftRight, Nat.testBit_xor]

theorem and_one_xor (a b : Nat) :
    (a ^^^ b) &&& 1 = (a &&& 1) ^^^ (b &&& 1) :=
  Nat.and_xor_distrib_right

theorem shiftLeft_and_one (h k : Nat) :
    (h <<< (k + 1)) &&& 1 = 0 := by
  have h1 : h <<< (k + 1) = h <<< k * 2 := by
    rw [Nat.shiftLeft_eq, Nat.shiftLeft_eq, Nat.pow_succ, Nat.mul_assoc]
  rw [h1, Nat.and_one_is_mod]
  omega

theorem shiftLeft_succ_shiftRight_one (h k : Nat) :
    (h <<< (k + 1)) >>> 1 = h <<< k := by
  have h1 : h <<< (k + 1) = h <<< k * 2 := by
    rw [Nat.shiftLeft_eq, Nat.shiftLeft_eq, Nat.pow_succ, Nat.mul_assoc]
  rw [h1, Nat.shiftRight_eq_div_pow, Nat.pow_one]
  omega

/-- One bit step commutes with splitting off bits above position `k+1`. -/
theorem crcBitStep_split (h a k : Nat) :
    crcBitStep ((h <<< (k + 1)) ^^^ a) = (h <<< k) ^^^ crcBitStep a := by
  unfold crcBitStep
  rw [and_one_xor, shiftLeft_and_one, Nat.zero_xor,
    shiftRight_one_xor, shiftLeft_succ_shiftRight_one]
  by_cases hb : a &&& 1 = 1
  · rw [if_pos hb, if_pos hb, Nat.xor_assoc]
  · rw [if_neg hb, if_neg hb]

/-- The eight-fold bit step sends `(h <<< 8) ^^^ a` to `h ^^^ rounds a`. -/
theorem crcRounds8_split (h a : Nat) :
    crcRounds8 ((h <<< 8) ^^^ a) = h ^^^ crcRounds8 a := by
  unfold crcRounds8
  rw [show (8 : Nat) = 7 + 1 from rfl, crcBitStep_split]
  rw [show (7 : Nat) = 6 + 1 from rfl, crcBitStep_split]
  rw [show (6 : Nat) = 5 + 1 from rfl, crcBitStep_split]
  rw [show (5 : Nat) = 4 + 1 from rfl, crcBitStep_split]
  rw [show (4 : Nat) = 3 + 1 from rfl, crcBitStep_split]
  rw [show (3 : Nat) = 2 + 1 from rfl, crcBitStep_split]
  rw [show (2 : Nat) = 1 + 1 from rfl, crcBitStep_split]
  rw [show (1 : Nat) = 0 + 1 from rfl, crcBitStep_split]
  rw [Nat.shiftLeft_zero]

/-- Any value decomposes as its high part shifted left 8 xor its low byte. -/
theorem shiftRight8_shiftLeft8_xor_low (v : Nat) :
    ((v >>> 8) <<< 8) ^^^ (v &&& 0xFF) = v := by
  apply Nat.eq_of_testBit_eq
  intro i
  rcases Nat.lt_or_ge i 8 with hi | hi
  · have h1 : ((v >>> 8) <<< 8).testBit i = false := by
      simp [Nat.testBit_shiftLeft, Nat.not_le.mpr hi]
    have h2 : (v &&& 0xFF).testBit i = v.testBit i := by
      have : (0xFF : Nat) = 2 ^ 8 - 1 := rfl
      rw [Nat.testBit_and, this, Nat.testBit_two_pow_sub_one]
      simp [hi]
    simp [Nat.testBit_xor, h1, h2]
  · have h1 : ((v >>> 8) <<< 8).testBit i = v.testBit i := by
      rw [Nat.testBit_shiftLeft, Nat.testBit_shiftRight]
      simp [hi, Nat.add_sub_cancel' hi]
    have h2 : (v &&& 0xFF).testBit i = false := by
      have : (0xFF : Nat) = 2 ^ 8 - 1 := rfl
      rw [Nat.testBit_and, this, Nat.testBit_two_pow_sub_one]
      simp [Nat.not_lt.mpr hi]
    simp [Nat.testBit_xor, h1, h2]

/-- The two single-bit steps (control loop and table-building loop)
agree: the source writes the xor operands in opposite orders. -/
theorem crcTableBitStep_eq (c : Nat) : crcTableBitStep c = crcBitStep c := by
  unfold crcTableBitStep crcBitStep
  by_cases hb : c &&& 1 = 1 <;> simp [hb, Nat.xor_comm]

theorem crcTableEntry_eq (i : Nat) : crcTableEntry i = crcRounds8 i := by
  unfold crcTableEntry crcRounds8
  simp only [crcTableBitStep_eq]

theorem getCRCTable_getD (i : Nat) (hi : i < 256) :
    getCRCTable.getD i 0 = crcTableEntry i := by
  unfold getCRCTable
  rw [List.getD_eq_getElem?_getD, List.getElem?_map, List.getElem?_range hi]
  rfl

theorem shiftRight_eight_xor (a b : Nat) :
    (a ^^^ b) >>> 8 = (a >>> 8) ^^^ (b >>> 8) := by
  apply Nat.eq_of_testBit_eq
  intro i
  simp [Nat.testBit_shiftRight, Nat.testBit_xor]

theorem shiftRight_one_xor_eight (crc byte : Nat) (hb : byte < 256) :
    (crc ^^^ byte) >>> 8 = crc >>> 8 := by
  rw [shiftRight_eight_xor]
  have : byte >>> 8 = 0 := by
    rw [Nat.shiftRight_eq_div_pow]
    omega
  rw [this, Nat.xor_zero]

/-- Per-byte agreement of the two CRC loops for byte values. -/
theorem crcByteStep_eq_table (crc byte : Nat) (hb : byte < 256) :
    crcByteStep crc byte = crcTableByteStep crc byte := by
  unfold crcByteStep crcTableByteStep
  have hlow : (crc ^^^ byte) &&& 0xFF < 256 := by
    have := Nat.and_le_right (n := crc ^^^ byte) (m := 0xFF)
    omega
  rw [getCRCTable_getD _ hlow, crcTableEntry_eq]
  have hv : ((crc ^^^ byte) >>> 8) <<< 8 ^^^ ((crc ^^^ byte) &&& 0xFF) =
      crc ^^^ byte := shiftRight8_shiftLeft8_xor_low _
  calc crcRounds8 (crc ^^^ byte)
      = crcRounds8 ((((crc ^^^ byte) >>> 8) <<< 8) ^^^ ((crc ^^^ byte) &&& 0xFF)) := by
        rw [hv]
    _ = ((crc ^^^ byte) >>> 8) ^^^ crcRounds8 ((crc ^^^ byte) &&& 0xFF) :=
        crcRounds8_split _ _
    _ = (crc >>> 8) ^^^ crcRounds8 ((crc ^^^ byte) &&& 0xFF) := by
        rw [shiftRight_one_xor_eight crc byte hb]

/-- The two CRC implementations agree on every byte sequence. -/
theorem calculateCRC_eq_calculateCRC32 (data : List Nat)
    (hd : ∀ b ∈ data, b < 256) :
    calculateCRC data = calculateCRC32 data := by
  unfold calculateCRC calculateCRC32
  have : ∀ (init : Nat), data.foldl crcByteStep init = data.foldl crcTableByteStep init := by
    induction data with
    | nil => intro init; rfl
    | cons b bs ih =>
      intro init
      have hb : b < 256 := hd b (List.mem_cons_self ..)
      simp only [List.foldl_cons, crcByteStep_eq_table init b hb]
      exact ih (fun x hx => hd x (List.mem_cons_of_mem _ hx)) _
  rw [this]

/-! ## Packet codec

`TuyaDevice.buildPacket` (control connection) lays a frame out as
`header(4) ‖ command(4,BE) ‖ sequence(4,BE) ‖ length(4,BE) ‖ payload ‖
crc(4,BE) ‖ footer(4)` with `length = payload.length + 8`; the class
increments its per-connection counter and passes the new value as the
sequence.  `TuyaStreamDecoder.buildPacket` produces the identical
layout (its sequence comes from a wall-clock timestamp and its CRC from
the table-driven implementation). -/

/-- `TuyaDevice.buildPacket`, as a function of the command, the
sequence value written (the source writes the just-incremented
per-connection counter) and the encrypted payload. -/
def buildPacket (command seq : Nat) (payload : List Nat) : List Nat :=
  let crcData := magicHeader ++ be32 command ++ be32 seq ++
    be32 (payload.length + 8) ++ payload
  crcData ++ be32 (calculateCRC crcData) ++ magicFooter

/-- `TuyaStreamDecoder.buildPacket`: same layout, sequence taken from
`Date.now() & 0xFFFFFFFF`, checksum from the table-driven CRC. -/
def streamBuildPacket (command seqTimestamp : Nat) (payload : List Nat) : List Nat :=
  let crcData := magicHeader ++ be32 command ++ be32 seqTimestamp ++
    be32 (payload.length + 8) ++ payload
  crcData ++ be32 (calculateCRC32 crcData) ++ magicFooter

/-- The framing stage of `TuyaDevice.handleData` (control connection).
The source examines each socket-read chunk in isolation: it returns
(discarding the chunk) when the chunk is shorter than 20 bytes or does
not begin with the magic header, reads `command`, `sequence` and
`length` at byte offsets 8, 12 and 16, returns when the chunk is
shorter than `20 + length`, and otherwise extracts
`data.slice(20, 20 + length - 8)` as the encrypted payload.  The
decrypt and JSON stages consume the result downstream. -/
def handleDataParse (data : List Nat) : Option (Nat × Nat × Nat × List Nat) :=
  if data.length < 20 then none
  else if data.take 4 ≠ magicHeader then none
  else if data.length < 20 + be32At data 16 then none
  else some (be32At data 8, be32At data 12, be32At data 16,
    (data.drop 20).take (be32At data 16 - 8))

/-! ## Stream connection frame scan

`TuyaStreamDecoder.handleStreamData` appends each socket-read chunk to
the persistent `frameBuffer` and scans it in a loop: while at least 20
bytes are buffered, it resynchronizes to the next magic-header
occurrence when the buffer does not begin with the header (discarding
everything when none exists), then reads the length field at offset 16,
stops to await more data when the buffer holds less than `20 + length`
bytes, and otherwise extracts the packet `slice(0, 20 + length)` and
continues.  After resynchronizing the source does **not** re-check the
20-byte minimum before calling `readUInt32BE(8)`/`readUInt32BE(16)`;
`Option` models the `RangeError` those calls throw on a too-short
buffer (`none` = the data handler throws). -/

/-- `frameBuffer.indexOf(Buffer.from('000055aa','hex'), 1)`: the lowest
index `i ≥ 1` where the full 4-byte magic header occurs, if any. -/
def findMagic (l : List Nat) : Option Nat :=
  (List.range l.length).find? fun i =>
    decide (1 ≤ i) && ((l.drop i).take 4 == magicHeader)

/-- One `while` iteration body of `TuyaStreamDecoder.handleStreamData`,
with `fuel` bounding the number of iterations.  Every iteration that
recurses drops at least 20 bytes from the buffer, so a fuel of
`buf.length + 1` is never exhausted (`scanLoopFuel_congr` below makes
the fuel irrelevance precise); the fuel only makes the recursion
structural so the scan stays kernel-computable.  The result is the
remaining buffer and the extracted packets in order, or `none` when an
iteration throws (`readUInt32BE` past the end of the buffer). -/
def scanLoopFuel : Nat → List Nat → Option (List Nat × List (List Nat))
  | 0, _ => none
  | fuel + 1, buf =>
    if buf.length < 20 then some (buf, [])
    else if buf.take 4 = magicHeader then
      let payloadLen := be32At buf 16
      if buf.length < 20 + payloadLen then some (buf, [])
      else
        match scanLoopFuel fuel (buf.drop (20 + payloadLen)) with
        | none => none
        | some (b, fs) => some (b, buf.take (20 + payloadLen) :: fs)
    else
      match findMagic buf with
      | none => some ([], [])
      | some i =>
        let b := buf.drop i
        if b.length < 20 then none
        else
          let payloadLen := be32At b 16
          if b.length < 20 + payloadLen then some (b, [])
          else
            match scanLoopFuel fuel (b.drop (20 + payloadLen)) with
            | none => none
            | some (b2, fs) => some (b2, b.take (20 + payloadLen) :: fs)

/-- The `while` loop of `TuyaStreamDecoder.handleStreamData`. -/
def scanLoop (buf : List Nat) : Option (List Nat × List (List Nat)) :=
  scanLoopFuel (buf.length + 1) buf

/-- Any fuel exceeding a twentieth of the buffer length gives the same
result: the fuel parameter is an artifact of the embedding, not of the
loop. -/
theorem scanLoopFuel_congr : ∀ f g : Nat, ∀ buf : List Nat,
    buf.length < 20 * f → buf.length < 20 * g →
    scanLoopFuel f buf = scanLoopFuel g buf := by
  intro f
  induction f with
  | zero => intro g buf hf; omega
  | succ f ih =>
    intro g buf hf hg
    match g, hg with
    | g + 1, hg =>
      show scanLoopFuel (f + 1) buf = scanLoopFuel (g + 1) buf
      simp only [scanLoopFuel]
      by_cases h20 : buf.length < 20
      · simp [h20]
      · simp only [if_neg h20]
        by_cases hm : buf.take 4 = magicHeader
        · simp only [if_pos hm]
          by_cases hc : buf.length < 20 + be32At buf 16
          · simp [hc]
          · simp only [if_neg hc]
            rw [ih g (buf.drop (20 + be32At buf 16))
              (by simp only [List.length_drop]; omega)
              (by simp only [List.length_drop]; omega)]
        · simp only [if_neg hm]
          match findMagic buf with
          | none => rfl
          | some i =>
            simp only
            by_cases hb : (List.drop i buf).length < 20
            · rw [if_pos hb, if_pos hb]
            · rw [if_neg hb, if_neg hb]
              by_cases hc2 : (List.drop i buf).length < 20 + be32At (List.drop i buf) 16
              · rw [if_pos hc2, if_pos hc2]
              · rw [if_neg hc2, if_neg hc2,
                  ih g (List.drop (20 + be32At (List.drop i buf) 16) (List.drop i buf))
                    (by simp only [List.length_drop] at *; omega)
                    (by simp only [List.length_drop] at *; omega)]

/-- `TuyaStreamDecoder.handleStreamData`: append the chunk to the frame
buffer and run the scan loop. -/
def handleStreamData (frameBuffer data : List Nat) :
    Option (List Nat × List (List Nat)) :=
  scanLoop (frameBuffer ++ data)

/-- Packets the stream connection turns into `videoData` emissions:
only those whose command field (offset 8) is `CMD_STREAM_DATA = 0xD1`;
other packets are silently dropped. -/
def streamDataPackets (packets : List (List Nat)) : List (List Nat) :=
  packets.filter fun p => be32At p 8 == 0xD1

/-! ## Well-formed frames and chunked feeding

A frame is well formed for the inbound parsers when it starts with the
magic header and its total length is `20 +` the length field the
parsers read at offset 16. -/

/-- Well-formedness of a frame under the inbound parsers' layout. -/
def wfFrame (F : List Nat) : Prop :=
  F.take 4 = magicHeader ∧ F.length = 20 + be32At F 16

theorem getD_take_of_lt (l : List Nat) (n i : Nat) (h : i < n) :
    (l.take n).getD i 0 = l.getD i 0 := by
  simp [List.getD_eq_getElem?_getD, List.getElem?_take_of_lt h]

theorem be32At_take (l : List Nat) (n i : Nat) (h : i + 4 ≤ n) :
    be32At (l.take n) i = be32At l i := by
  unfold be32At
  rw [getD_take_of_lt _ _ _ (by omega), getD_take_of_lt _ _ _ (by omega),
    getD_take_of_lt _ _ _ (by omega), getD_take_of_lt _ _ _ (by omega)]

theorem take_four_of_take (l : List Nat) (n : Nat) (h : 4 ≤ n) :
    (l.take n).take 4 = l.take 4 := by
  rw [List.take_take]
  congr 1
  omega

/-- Every proper prefix of a well-formed frame is left untouched by the
stream scan loop: no packet is extracted and no byte is consumed. -/
theorem scanLoop_proper_prefix (F : List Nat) (hF : wfFrame F)
    (n : Nat) (hn : n < F.length) :
    scanLoop (F.take n) = some (F.take n, []) := by
  obtain ⟨hmagic, hlen⟩ := hF
  have hplen : (F.take n).length = n := by
    rw [List.length_take]
    omega
  show scanLoopFuel ((F.take n).length + 1) (F.take n) = some (F.take n, [])
  by_cases h20 : n < 20
  · simp only [scanLoopFuel]
    rw [if_pos (by omega)]
  · simp only [scanLoopFuel]
    rw [if_neg (by omega), if_pos (by rw [take_four_of_take F n (by omega)]; exact hmagic),
      if_pos (by rw [be32At_take F n 16 (by omega)]; omega)]

/-- Fuel at least one suffices on the empty buffer. -/
theorem scanLoopFuel_nil (f : Nat) (hf : 1 ≤ f) :
    scanLoopFuel f [] = some ([], []) := by
  match f, hf with
  | f + 1, _ =>
    simp [scanLoopFuel]

/-- A complete well-formed frame is extracted whole by the stream scan
loop, leaving an empty buffer. -/
theorem scanLoop_whole (F : List Nat) (hF : wfFrame F) :
    scanLoop F = some ([], [F]) := by
  obtain ⟨hmagic, hlen⟩ := hF
  show scanLoopFuel (F.length + 1) F = some ([], [F])
  simp only [scanLoopFuel]
  rw [if_neg (by omega), if_pos hmagic, if_neg (by omega)]
  have hdrop : F.drop (20 + be32At F 16) = [] := by
    rw [← hlen, List.drop_length]
  have htake : F.take (20 + be32At F 16) = F := by
    rw [← hlen, List.take_length]
  rw [hdrop, scanLoopFuel_nil F.length (by omega), htake]

/-- Feeding a sequence of socket-read chunks to the stream connection:
each chunk goes through `handleStreamData` against the current frame
buffer; the extracted packets are collected in order.  `none`
propagates a thrown iteration. -/
def feedChunks : List Nat → List (List Nat) → Option (List Nat × List (List Nat))
  | buf, [] => some (buf, [])
  | buf, c :: cs =>
    match handleStreamData buf c with
    | none => none
    | some (b, fs) =>
      match feedChunks b cs with
      | none => none
      | some (b2, fs2) => some (b2, fs ++ fs2)

/-- While the accumulated bytes form a proper prefix of a well-formed
frame, feeding chunk by chunk extracts nothing and buffers everything. -/
theorem feedChunks_partial (F : List Nat) (hF : wfFrame F) :
    ∀ cs : List (List Nat), ∀ p : List Nat,
    (∃ rest : List Nat, rest ≠ [] ∧ (p ++ cs.flatten) ++ rest = F) →
    feedChunks p cs = some (p ++ cs.flatten, []) := by
  intro cs
  induction cs with
  | nil =>
    intro p _
    simp [feedChunks]
  | cons c cs ih =>
    intro p hrest
    obtain ⟨rest, hne, heq⟩ := hrest
    have hpc : p ++ c = F.take (p ++ c).length := by
      have : (p ++ c) ++ (cs.flatten ++ rest) = F := by
        simpa [List.append_assoc] using heq
      rw [← this, List.take_left']
      rfl
    have hlt : (p ++ c).length < F.length := by
      have : (p ++ c) ++ (cs.flatten ++ rest) = F := by
        simpa [List.append_assoc] using heq
      have hflen : F.length = (p ++ c).length + (cs.flatten ++ rest).length := by
        rw [← this, List.length_append]
      have : rest.length ≥ 1 := by
        cases rest with
        | nil => exact absurd rfl hne
        | cons a l => simp
      simp only [List.length_append] at hflen ⊢
      omega
    show (match handleStreamData p c with
      | none => none
      | some (b, fs) =>
        match feedChunks b cs with
        | none => none
        | some (b2, fs2) => some (b2, fs ++ fs2)) = some (p ++ (c :: cs).flatten, [])
    have hscan : handleStreamData p c = some (p ++ c, []) := by
      show scanLoop (p ++ c) = some (p ++ c, [])
      rw [hpc]
      exact scanLoop_proper_prefix F hF _ hlt
    have hih : feedChunks (p ++ c) cs = some ((p ++ c) ++ cs.flatten, []) := by
      apply ih
      exact ⟨rest, hne, by simpa [List.append_assoc] using heq⟩
    simp only [hscan, hih]
    simp [List.append_assoc]

/-- Feeding chunks whose concatenation is exactly a well-formed frame
yields precisely that one frame, with an empty buffer, no matter where
the chunk boundaries fall. -/
theorem feedChunks_complete (F : List Nat) (hF : wfFrame F) :
    ∀ cs : List (List Nat), ∀ p : List Nat,
    cs ≠ [] → (∀ c ∈ cs, c ≠ []) → p ++ cs.flatten = F →
    feedChunks p cs = some ([], [F]) := by
  intro cs
  induction cs with
  | nil => intro p h; exact absurd rfl h
  | cons c cs ih =>
    intro p _ hne heq
    show (match handleStreamData p c with
      | none => none
      | some (b, fs) =>
        match feedChunks b cs with
        | none => none
        | some (b2, fs2) => some (b2, fs ++ fs2)) = some ([], [F])
    cases cs with
    | nil =>
      have hpc : p ++ c = F := by simpa using heq
      have hscan : handleStreamData p c = some ([], [F]) := by
        show scanLoop (p ++ c) = some ([], [F])
        rw [hpc]
        exact scanLoop_whole F hF
      simp only [hscan]
      simp [feedChunks]
    | cons c2 cs2 =>
      have hflat : (c2 :: cs2).flatten ≠ [] := by
        have hc2 : c2 ≠ [] := hne c2 (by simp)
        simp only [List.flatten_cons]
        intro hcontra
        exact hc2 (List.append_eq_nil.mp hcontra).1
      have hpc : p ++ c = F.take (p ++ c).length := by
        have : (p ++ c) ++ (c2 :: cs2).flatten = F := by
          simpa [List.append_assoc] using heq
        rw [← this, List.take_left']
        rfl
      have hlt : (p ++ c).length < F.length := by
        have hsplit : (p ++ c) ++ (c2 :: cs2).flatten = F := by
          simpa [List.append_assoc] using heq
        have hflen : F.length = (p ++ c).length + (c2 :: cs2).flatten.length := by
          rw [← hsplit, List.length_append]
        have : (c2 :: cs2).flatten.length ≥ 1 := by
          cases hfl : (c2 :: cs2).flatten with
          | nil => exact absurd hfl hflat
          | cons a l => simp
        omega
      have hscan : handleStreamData p c = some (p ++ c, []) := by
        show scanLoop (p ++ c) = some (p ++ c, [])
        rw [hpc]
        exact scanLoop_proper_prefix F hF _ hlt
      have hih : feedChunks (p ++ c) (c2 :: cs2) = some ([], [F]) := by
        apply ih (p ++ c) (by simp) (fun x hx => hne x (by simp [hx]))
        simpa [List.append_assoc] using heq
      simp only [hscan, hih]
      rfl

/-! ## Command channel: sequencing, correlation, timeout

`TuyaDevice.sendCommand` builds the packet through `buildPacket`
(which increments `this.sequence` and writes the new value into the
frame) and then registers a one-shot listener
`this.once('response_' + this.sequence, handler)` — the pending set is
the `EventEmitter`'s once-listener registry, keyed by sequence number.
`TuyaDevice.handlePayload` runs
`this.emit('response_' + sequence, payload)` on every inbound payload,
which fires and removes all once-listeners under that key.  The 5000 ms
timeout handler in `sendCommand` only calls
`reject(new Error('Command timeout'))`; it does not touch the listener
registry. -/

/-- Per-connection correlation state: the outgoing sequence counter and
the registered once-listeners as `(sequence key, call id)` pairs in
registration order. -/
structure CtrlState where
  sequence : Nat
  pending : List (Nat × Nat)
deriving DecidableEq, Repr

/-- The registration effect of one `sendCommand` call: `buildPacket`
increments the counter, and the pending listener is registered under
the incremented value.  Returns the new state and the sequence assigned
to the command. -/
def sendCommandStep (st : CtrlState) (callId : Nat) : CtrlState × Nat :=
  let seq := st.sequence + 1
  ({ sequence := seq, pending := st.pending ++ [(seq, callId)] }, seq)

/-- The correlation effect of one inbound payload with sequence field
`seq` (`handlePayload`'s `emit`): every once-listener under that key
fires with the payload and is removed.  Returns the new state and the
resolved `(call id, payload)` pairs. -/
def deliverResponse (st : CtrlState) (seq payload : Nat) :
    CtrlState × List (Nat × Nat) :=
  ({ st with pending := st.pending.filter fun e => e.1 != seq },
   (st.pending.filter fun e => e.1 == seq).map fun e => (e.2, payload))

/-- The timeout handler of `sendCommand` as written in the source: it
rejects the promise with `Command timeout` and changes no session
state — in particular it removes nothing from the listener registry. -/
def commandTimeoutStep (st : CtrlState) : CtrlState :=
  st

/-! ## Motion-event lifecycle

`TuyaDevice.handlePayload`: on `command === 8` with a `dps` object
containing data point 115 (`MOTION_DETECTED`), `emit('motion', true)`
fires immediately and a `setTimeout` schedules `emit('motion', false)`
30 000 ms later unconditionally — nothing ever cancels it. -/

/-- The `MOTION_DETECTED` data point (`DP.MOTION_DETECTED = 115`). -/
def DP_MOTION_DETECTED : Nat := 115

/-- A decrypted, JSON-parsed payload: at most the shape `handlePayload`
inspects — an optional `dps` object mapping data-point codes to
values. -/
structure ParsedPayload where
  dps : Option (List (Nat × Bool))
deriving DecidableEq, Repr

/-- `payload.dps && payload.dps[115] !== undefined`: the `dps` object
is present and contains the motion data point (with any value). -/
def hasMotionDP (p : ParsedPayload) : Bool :=
  match p.dps with
  | none => false
  | some l => l.any fun e => e.1 == DP_MOTION_DETECTED

/-- Events observable from `handlePayload`, with the time-unit at which
they fire. -/
inductive CtrlEvent where
  | response (seq payload : Nat) : CtrlEvent
  | motion (detected : Bool) : CtrlEvent
deriving DecidableEq, Repr

/-- The emissions of one `handlePayload` call arriving at time `t`:
always the `response_<sequence>` emission; additionally, when the
command is the status push `8` and the payload carries the
motion-detected data point, `motion true` now and the scheduled
`motion false` exactly 30 time-units later. -/
def handlePayloadEvents (t command seq : Nat) (p : ParsedPayload) :
    List (Nat × CtrlEvent) :=
  (t, CtrlEvent.response seq 0) ::
    (if command = 8 ∧ p.dps.isSome ∧ hasMotionDP p then
      [(t, CtrlEvent.motion true), (t + 30, CtrlEvent.motion false)]
    else [])

/-- All emissions of a trace of inbound parsed payloads
`(arrival time, command, sequence, payload)`, in arrival order. -/
def processTrace (trace : List (Nat × Nat × Nat × ParsedPayload)) :
    List (Nat × CtrlEvent) :=
  trace.flatMap fun e => handlePayloadEvents e.1 e.2.1 e.2.2.1 e.2.2.2

/-! ## Cipher layer: AES-128-ECB with PKCS#7 (Node `crypto` semantics)

The source encrypts with `crypto.createCipheriv('aes-128-ecb', key,
Buffer.alloc(0))` and decrypts with the matching `createDecipheriv`;
Node applies PKCS#7 padding in `cipher.final()` and verifies/strips it
in `decipher.final()` by default.  The repository contains no AES code
of its own, so the block cipher is modelled here directly from the AES
standard (FIPS 197), which is what `'aes-128-ecb'` names; the
known-answer test `aes_fips197_vector` below checks the model against
the FIPS 197 example vector. -/

/-- The AES S-box. -/
def sBoxTable : List Nat := [
  0x63, 0x7c, 0x77, 0x7b, 0xf2, 0x6b, 0x6f, 0xc5, 0x30, 0x01, 0x67, 0x2b, 0xfe, 0xd7, 0xab, 0x76,
  0xca, 0x82, 0xc9, 0x7d, 0xfa, 0x59, 0x47, 0xf0, 0xad, 0xd4, 0xa2, 0xaf, 0x9c, 0xa4, 0x72, 0xc0,
  0xb7, 0xfd, 0x93, 0x26, 0x36, 0x3f, 0xf7, 0xcc, 0x34, 0xa5, 0xe5, 0xf1, 0x71, 0xd8, 0x31, 0x15,
  0x04, 0xc7, 0x23, 0xc3, 0x18, 0x96, 0x05, 0x9a, 0x07, 0x12, 0x80, 0xe2, 0xeb, 0x27, 0xb2, 0x75,
  0x09, 0x83, 0x2c, 0x1a, 0x1b, 0x6e, 0x5a, 0xa0, 0x52, 0x3b, 0xd6, 0xb3, 0x29, 0xe3, 0x2f, 0x84,
  0x53, 0xd1, 0x00, 0xed, 0x20, 0xfc, 0xb1, 0x5b, 0x6a, 0xcb, 0xbe, 0x39, 0x4a, 0x4c, 0x58, 0xcf,
  0xd0, 0xef, 0xaa, 0xfb, 0x43, 0x4d, 0x33, 0x85, 0x45, 0xf9, 0x02, 0x7f, 0x50, 0x3c, 0x9f, 0xa8,
  0x51, 0xa3, 0x40, 0x8f, 0x92, 0x9d, 0x38, 0xf5, 0xbc, 0xb6, 0xda, 0x21, 0x10, 0xff, 0xf3, 0xd2,
  0xcd, 0x0c, 0x13, 0xec, 0x5f, 0x97, 0x44, 0x17, 0xc4, 0xa7, 0x7e, 0x3d, 0x64, 0x5d, 0x19, 0x73,
  0x60, 0x81, 0x4f, 0xdc, 0x22, 0x2a, 0x90, 0x88, 0x46, 0xee, 0xb8, 0x14, 0xde, 0x5e, 0x0b, 0xdb,
  0xe0, 0x32, 0x3a, 0x0a, 0x49, 0x06, 0x24, 0x5c, 0xc2, 0xd3, 0xac, 0x62, 0x91, 0x95, 0xe4, 0x79,
  0xe7, 0xc8, 0x37, 0x6d, 0x8d, 0xd5, 0x4e, 0xa9, 0x6c, 0x56, 0xf4, 0xea, 0x65, 0x7a, 0xae, 0x08,
  0xba, 0x78, 0x25, 0x2e, 0x1c, 0xa6, 0xb4, 0xc6, 0xe8, 0xdd, 0x74, 0x1f, 0x4b, 0xbd, 0x8b, 0x8a,
  0x70, 0x3e, 0xb5, 0x66, 0x48, 0x03, 0xf6, 0x0e, 0x61, 0x35, 0x57, 0xb9, 0x86, 0xc1, 0x1d, 0x9e,
  0xe1, 0xf8, 0x98, 0x11, 0x69, 0xd9, 0x8e, 0x94, 0x9b, 0x1e, 0x87, 0xe9, 0xce, 0x55, 0x28, 0xdf,
  0x8c, 0xa1, 0x89, 0x0d, 0xbf, 0xe6, 0x42, 0x68, 0x41, 0x99, 0x2d, 0x0f, 0xb0, 0x54, 0xbb, 0x16]

/-- The inverse AES S-box. -/
def invSBoxTable : List Nat := [
  0x52, 0x09, 0x6a, 0xd5, 0x30, 0x36, 0xa5, 0x38, 0xbf, 0x40, 0xa3, 0x9e, 0x81, 0xf3, 0xd7, 0xfb,
  0x7c, 0xe3, 0x39, 0x82, 0x9b, 0x2f, 0xff, 0x87, 0x34, 0x8e, 0x43, 0x44, 0xc4, 0xde, 0xe9, 0xcb,
  0x54, 0x7b, 0x94, 0x32, 0xa6, 0xc2, 0x23, 0x3d, 0xee, 0x4c, 0x95, 0x0b, 0x42, 0xfa, 0xc3, 0x4e,
  0x08, 0x2e, 0xa1, 0x66, 0x28, 0xd9, 0x24, 0xb2, 0x76, 0x5b, 0xa2, 0x49, 0x6d, 0x8b, 0xd1, 0x25,
  0x72, 0xf8, 0xf6, 0x64, 0x86, 0x68, 0x98, 0x16, 0xd4, 0xa4, 0x5c, 0xcc, 0x5d, 0x65, 0xb6, 0x92,
  0x6c, 0x70, 0x48, 0x50, 0xfd, 0xed, 0xb9, 0xda, 0x5e, 0x15, 0x46, 0x57, 0xa7, 0x8d, 0x9d, 0x84,
  0x90, 0xd8, 0xab, 0x00, 0x8c, 0xbc, 0xd3, 0x0a, 0xf7, 0xe4, 0x58, 0x05, 0xb8, 0xb3, 0x45, 0x06,
  0xd0, 0x2c, 0x1e, 0x8f, 0xca, 0x3f, 0x0f, 0x02, 0xc1, 0xaf, 0xbd, 0x03, 0x01, 0x13, 0x8a, 0x6b,
  0x3a, 0x91, 0x11, 0x41, 0x4f, 0x67, 0xdc, 0xea, 0x97, 0xf2, 0xcf, 0xce, 0xf0, 0xb4, 0xe6, 0x73,
  0x96, 0xac, 0x74, 0x22, 0xe7, 0xad, 0x35, 0x85, 0xe2, 0xf9, 0x37, 0xe8, 0x1c, 0x75, 0xdf, 0x6e,
  0x47, 0xf1, 0x1a, 0x71, 0x1d, 0x29, 0xc5, 0x89, 0x6f, 0xb7, 0x62, 0x0e, 0xaa, 0x18, 0xbe, 0x1b,
  0xfc, 0x56, 0x3e, 0x4b, 0xc6, 0xd2, 0x79, 0x20, 0x9a, 0xdb, 0xc0, 0xfe, 0x78, 0xcd, 0x5a, 0xf4,
  0x1f, 0xdd, 0xa8, 0x33, 0x88, 0x07, 0xc7, 0x31, 0xb1, 0x12, 0x10, 0x59, 0x27, 0x80, 0xec, 0x5f,
  0x60, 0x51, 0x7f, 0xa9, 0x19, 0xb5, 0x4a, 0x0d, 0x2d, 0xe5, 0x7a, 0x9f, 0x93, 0xc9, 0x9c, 0xef,
  0xa0, 0xe0, 0x3b, 0x4d, 0xae, 0x2a, 0xf5, 0xb0, 0xc8, 0xeb, 0xbb, 0x3c, 0x83, 0x53, 0x99, 0x61,
  0x17, 0x2b, 0x04, 0x7e, 0xba, 0x77, 0xd6, 0x26, 0xe1, 0x69, 0x14, 0x63, 0x55, 0x21, 0x0c, 0x7d]

/-- S-box lookup. -/
def sBox (b : Nat) : Nat := sBoxTable.getD b 0

/-- Inverse S-box lookup. -/
def invSBox (b : Nat) : Nat := invSBoxTable.getD b 0

/-- A 16-byte AES block as a flat record; byte `i` of the block is the
state entry in row `i mod 4`, column `i / 4` (FIPS 197 §3.4). -/
structure AesState where
  b0 : Nat
  b1 : Nat
  b2 : Nat
  b3 : Nat
  b4 : Nat
  b5 : Nat
  b6 : Nat
  b7 : Nat
  b8 : Nat
  b9 : Nat
  b10 : Nat
  b11 : Nat
  b12 : Nat
  b13 : Nat
  b14 : Nat
  b15 : Nat
deriving DecidableEq, Repr

/-- View a 16-byte buffer as a block. -/
def toSt (l : List Nat) : AesState :=
  ⟨l.getD 0 0, l.getD 1 0, l.getD 2 0, l.getD 3 0,
   l.getD 4 0, l.getD 5 0, l.getD 6 0, l.getD 7 0,
   l.getD 8 0, l.getD 9 0, l.getD 10 0, l.getD 11 0,
   l.getD 12 0, l.getD 13 0, l.getD 14 0, l.getD 15 0⟩

/-- Serialize a block back to bytes. -/
def ofSt (s : AesState) : List Nat :=
  [s.b0, s.b1, s.b2, s.b3, s.b4, s.b5, s.b6, s.b7,
   s.b8, s.b9, s.b10, s.b11, s.b12, s.b13, s.b14, s.b15]

/-- All sixteen bytes of a block are in range. -/
def okSt (s : AesState) : Prop :=
  s.b0 < 256 ∧ s.b1 < 256 ∧ s.b2 < 256 ∧ s.b3 < 256 ∧
  s.b4 < 256 ∧ s.b5 < 256 ∧ s.b6 < 256 ∧ s.b7 < 256 ∧
  s.b8 < 256 ∧ s.b9 < 256 ∧ s.b10 < 256 ∧ s.b11 < 256 ∧
  s.b12 < 256 ∧ s.b13 < 256 ∧ s.b14 < 256 ∧ s.b15 < 256

/-- SubBytes. -/
def subBytesSt (s : AesState) : AesState :=
  ⟨sBox s.b0, sBox s.b1, sBox s.b2, sBox s.b3,
   sBox s.b4, sBox s.b5, sBox s.b6, sBox s.b7,
   sBox s.b8, sBox s.b9, sBox s.b10, sBox s.b11,
   sBox s.b12, sBox s.b13, sBox s.b14, sBox s.b15⟩

/-- InvSubBytes. -/
def invSubBytesSt (s : AesState) : AesState :=
  ⟨invSBox s.b0, invSBox s.b1, invSBox s.b2, invSBox s.b3,
   invSBox s.b4, invSBox s.b5, invSBox s.b6, invSBox s.b7,
   invSBox s.b8, invSBox s.b9, invSBox s.b10, invSBox s.b11,
   invSBox s.b12, invSBox s.b13, invSBox s.b14, invSBox s.b15⟩

/-- ShiftRows: row `r` of the state rotates left by `r`. -/
def shiftRowsSt (s : AesState) : AesState :=
  ⟨s.b0, s.b5, s.b10, s.b15,
   s.b4, s.b9, s.b14, s.b3,
   s.b8, s.b13, s.b2, s.b7,
   s.b12, s.b1, s.b6, s.b11⟩

/-- InvShiftRows: row `r` of the state rotates right by `r`. -/
def invShiftRowsSt (s : AesState) : AesState :=
  ⟨s.b0, s.b13, s.b10, s.b7,
   s.b4, s.b1, s.b14, s.b11,
   s.b8, s.b5, s.b2, s.b15,
   s.b12, s.b9, s.b6, s.b3⟩

/-- Multiplication by `x` in GF(2^8) modulo `x^8 + x^4 + x^3 + x + 1`. -/
def xtime (x : Nat) : Nat :=
  ((x <<< 1) ^^^ (if x.testBit 7 then 0x1B else 0)) &&& 0xFF

/-- GF(2^8) multiplication by 3. -/
def mul3 (x : Nat) : Nat := xtime x ^^^ x

/-- GF(2^8) multiplication by 9. -/
def mul9 (x : Nat) : Nat := xtime (xtime (xtime x)) ^^^ x

/-- GF(2^8) multiplication by 11. -/
def mul11 (x : Nat) : Nat := xtime (xtime (xtime x)) ^^^ xtime x ^^^ x

/-- GF(2^8) multiplication by 13. -/
def mul13 (x : Nat) : Nat := xtime (xtime (xtime x)) ^^^ xtime (xtime x) ^^^ x

/-- GF(2^8) multiplication by 14. -/
def mul14 (x : Nat) : Nat := xtime (xtime (xtime x)) ^^^ xtime (xtime x) ^^^ xtime x

/-- MixColumns, written out column by column (a column is four
consecutive bytes of the flat state). -/
def mixColumnsSt (s : AesState) : AesState :=
  ⟨xtime s.b0 ^^^ mul3 s.b1 ^^^ s.b2 ^^^ s.b3,
   s.b0 ^^^ xtime s.b1 ^^^ mul3 s.b2 ^^^ s.b3,
   s.b0 ^^^ s.b1 ^^^ xtime s.b2 ^^^ mul3 s.b3,
   mul3 s.b0 ^^^ s.b1 ^^^ s.b2 ^^^ xtime s.b3,
   xtime s.b4 ^^^ mul3 s.b5 ^^^ s.b6 ^^^ s.b7,
   s.b4 ^^^ xtime s.b5 ^^^ mul3 s.b6 ^^^ s.b7,
   s.b4 ^^^ s.b5 ^^^ xtime s.b6 ^^^ mul3 s.b7,
   mul3 s.b4 ^^^ s.b5 ^^^ s.b6 ^^^ xtime s.b7,
   xtime s.b8 ^^^ mul3 s.b9 ^^^ s.b10 ^^^ s.b11,
   s.b8 ^^^ xtime s.b9 ^^^ mul3 s.b10 ^^^ s.b11,
   s.b8 ^^^ s.b9 ^^^ xtime s.b10 ^^^ mul3 s.b11,
   mul3 s.b8 ^^^ s.b9 ^^^ s.b10 ^^^ xtime s.b11,
   xtime s.b12 ^^^ mul3 s.b13 ^^^ s.b14 ^^^ s.b15,
   s.b12 ^^^ xtime s.b13 ^^^ mul3 s.b14 ^^^ s.b15,
   s.b12 ^^^ s.b13 ^^^ xtime s.b14 ^^^ mul3 s.b15,
   mul3 s.b12 ^^^ s.b13 ^^^ s.b14 ^^^ xtime s.b15⟩

/-- InvMixColumns, written out column by column. -/
def invMixColumnsSt (s : AesState) : AesState :=
  ⟨mul14 s.b0 ^^^ mul11 s.b1 ^^^ mul13 s.b2 ^^^ mul9 s.b3,
   mul9 s.b0 ^^^ mul14 s.b1 ^^^ mul11 s.b2 ^^^ mul13 s.b3,
   mul13 s.b0 ^^^ mul9 s.b1 ^^^ mul14 s.b2 ^^^ mul11 s.b3,
   mul11 s.b0 ^^^ mul13 s.b1 ^^^ mul9 s.b2 ^^^ mul14 s.b3,
   mul14 s.b4 ^^^ mul11 s.b5 ^^^ mul13 s.b6 ^^^ mul9 s.b7,
   mul9 s.b4 ^^^ mul14 s.b5 ^^^ mul11 s.b6 ^^^ mul13 s.b7,
   mul13 s.b4 ^^^ mul9 s.b5 ^^^ mul14 s.b6 ^^^ mul11 s.b7,
   mul11 s.b4 ^^^ mul13 s.b5 ^^^ mul9 s.b6 ^^^ mul14 s.b7,
   mul14 s.b8 ^^^ mul11 s.b9 ^^^ mul13 s.b10 ^^^ mul9 s.b11,
   mul9 s.b8 ^^^ mul14 s.b9 ^^^ mul11 s.b10 ^^^ mul13 s.b11,
   mul13 s.b8 ^^^ mul9 s.b9 ^^^ mul14 s.b10 ^^^ mul11 s.b11,
   mul11 s.b8 ^^^ mul13 s.b9 ^^^ mul9 s.b10 ^^^ mul14 s.b11,
   mul14 s.b12 ^^^ mul11 s.b13 ^^^ mul13 s.b14 ^^^ mul9 s.b15,
   mul9 s.b12 ^^^ mul14 s.b13 ^^^ mul11 s.b14 ^^^ mul13 s.b15,
   mul13 s.b12 ^^^ mul9 s.b13 ^^^ mul14 s.b14 ^^^ mul11 s.b15,
   mul11 s.b12 ^^^ mul13 s.b13 ^^^ mul9 s.b14 ^^^ mul14 s.b15⟩

/-- AddRoundKey. -/
def addRoundKeySt (s k : AesState) : AesState :=
  ⟨s.b0 ^^^ k.b0, s.b1 ^^^ k.b1, s.b2 ^^^ k.b2, s.b3 ^^^ k.b3,
   s.b4 ^^^ k.b4, s.b5 ^^^ k.b5, s.b6 ^^^ k.b6, s.b7 ^^^ k.b7,
   s.b8 ^^^ k.b8, s.b9 ^^^ k.b9, s.b10 ^^^ k.b10, s.b11 ^^^ k.b11,
   s.b12 ^^^ k.b12, s.b13 ^^^ k.b13, s.b14 ^^^ k.b14, s.b15 ^^^ k.b15⟩

/-- The AES-128 round constants. -/
def rconList : List Nat := [0x01, 0x02, 0x04, 0x08, 0x10, 0x20, 0x40, 0x80, 0x1b, 0x36]

/-- One AES-128 key-schedule step: round key `i+1` from round key `i`
(word-wise: `w0' = w0 ^ SubWord(RotWord(w3)) ^ Rcon`, then chained
xors). -/
def nextRoundKey (rc : Nat) (k : AesState) : AesState :=
  let n0 := k.b0 ^^^ sBox k.b13 ^^^ rc
  let n1 := k.b1 ^^^ sBox k.b14
  let n2 := k.b2 ^^^ sBox k.b15
  let n3 := k.b3 ^^^ sBox k.b12
  let n4 := k.b4 ^^^ n0
  let n5 := k.b5 ^^^ n1
  let n6 := k.b6 ^^^ n2
  let n7 := k.b7 ^^^ n3
  let n8 := k.b8 ^^^ n4
  let n9 := k.b9 ^^^ n5
  let n10 := k.b10 ^^^ n6
  let n11 := k.b11 ^^^ n7
  let n12 := k.b12 ^^^ n8
  let n13 := k.b13 ^^^ n9
  let n14 := k.b14 ^^^ n10
  let n15 := k.b15 ^^^ n11
  ⟨n0, n1, n2, n3, n4, n5, n6, n7, n8, n9, n10, n11, n12, n13, n14, n15⟩

/-- Round key `i` of the AES-128 key schedule. -/
def roundKeyN (key : AesState) : Nat → AesState
  | 0 => key
  | i + 1 => nextRoundKey (rconList.getD i 0) (roundKeyN key i)

/-- One encryption round (rounds 1–9). -/
def encRound (k s : AesState) : AesState :=
  addRoundKeySt (mixColumnsSt (shiftRowsSt (subBytesSt s))) k

/-- One decryption round of the straightforward inverse cipher
(InvShiftRows, InvSubBytes, AddRoundKey, InvMixColumns). -/
def decRound (k u : AesState) : AesState :=
  invMixColumnsSt (addRoundKeySt (invSubBytesSt (invShiftRowsSt u)) k)

/-- The AES-128 block encryption (FIPS 197 Cipher, Nr = 10). -/
def aesEncryptSt (key st : AesState) : AesState :=
  addRoundKeySt
    (shiftRowsSt (subBytesSt
      (encRound (roundKeyN key 9)
        (encRound (roundKeyN key 8)
          (encRound (roundKeyN key 7)
            (encRound (roundKeyN key 6)
              (encRound (roundKeyN key 5)
                (encRound (roundKeyN key 4)
                  (encRound (roundKeyN key 3)
                    (encRound (roundKeyN key 2)
                      (encRound (roundKeyN key 1)
                        (addRoundKeySt st (roundKeyN key 0)))))))))))))
    (roundKeyN key 10)

/-- The AES-128 block decryption (FIPS 197 InvCipher, Nr = 10). -/
def aesDecryptSt (key ct : AesState) : AesState :=
  addRoundKeySt
    (invSubBytesSt (invShiftRowsSt
      (decRound (roundKeyN key 1)
        (decRound (roundKeyN key 2)
          (decRound (roundKeyN key 3)
            (decRound (roundKeyN key 4)
              (decRound (roundKeyN key 5)
                (decRound (roundKeyN key 6)
                  (decRound (roundKeyN key 7)
                    (decRound (roundKeyN key 8)
                      (decRound (roundKeyN key 9)
                        (addRoundKeySt ct (roundKeyN key 10)))))))))))))
    (roundKeyN key 0)

/-! ### GF(2^8) algebra for the MixColumns inversion -/

instance : Std.Associative (α := Nat) (· ^^^ ·) := ⟨Nat.xor_assoc⟩

instance : Std.Commutative (α := Nat) (· ^^^ ·) := ⟨Nat.xor_comm⟩

theorem xor_lt_256 {x y : Nat} (hx : x < 256) (hy : y < 256) : x ^^^ y < 256 := by
  have h := Nat.xor_lt_two_pow (x := x) (y := y) (n := 8) (by omega) (by omega)
  omega

theorem shiftLeft_one_xor_distrib (a b : Nat) :
    (a ^^^ b) <<< 1 = (a <<< 1) ^^^ (b <<< 1) := by
  apply Nat.eq_of_testBit_eq
  intro i
  simp [Nat.testBit_shiftLeft, Nat.testBit_xor, Bool.and_xor_distrib_left]

theorem ite_xor_ite (p q : Bool) (v : Nat) :
    (if (p != q) = true then v else 0) =
      (if p = true then v else 0) ^^^ (if q = true then v else 0) := by
  cases p <;> cases q <;> simp

/-- `xtime` is additive over GF(2^8) addition (xor). -/
theorem xtime_xor (a b : Nat) : xtime (a ^^^ b) = xtime a ^^^ xtime b := by
  unfold xtime
  rw [Nat.testBit_xor, ite_xor_ite, shiftLeft_one_xor_distrib, ← Nat.and_xor_distrib_right]
  congr 1
  ac_rfl

theorem mul3_xor (a b : Nat) : mul3 (a ^^^ b) = mul3 a ^^^ mul3 b := by
  unfold mul3
  rw [xtime_xor]
  ac_rfl

theorem mul9_xor (a b : Nat) : mul9 (a ^^^ b) = mul9 a ^^^ mul9 b := by
  unfold mul9
  simp only [xtime_xor]
  ac_rfl

theorem mul11_xor (a b : Nat) : mul11 (a ^^^ b) = mul11 a ^^^ mul11 b := by
  unfold mul11
  simp only [xtime_xor]
  ac_rfl

theorem mul13_xor (a b : Nat) : mul13 (a ^^^ b) = mul13 a ^^^ mul13 b := by
  unfold mul13
  simp only [xtime_xor]
  ac_rfl

theorem mul14_xor (a b : Nat) : mul14 (a ^^^ b) = mul14 a ^^^ mul14 b := by
  unfold mul14
  simp only [xtime_xor]
  ac_rfl

/-! The sixteen entries of `InvMix · Mix = I` over GF(2^8), one per
(row, column) pair, each checked over all byte values. -/

theorem mixE00 : ∀ x < 256, mul14 (xtime x) ^^^ mul11 x ^^^ mul13 x ^^^ mul9 (mul3 x) = x := by decide

theorem mixE01 : ∀ x < 256, mul14 (mul3 x) ^^^ mul11 (xtime x) ^^^ mul13 x ^^^ mul9 x = 0 := by decide

theorem mixE02 : ∀ x < 256, mul14 x ^^^ mul11 (mul3 x) ^^^ mul13 (xtime x) ^^^ mul9 x = 0 := by decide

theorem mixE03 : ∀ x < 256, mul14 x ^^^ mul11 x ^^^ mul13 (mul3 x) ^^^ mul9 (xtime x) = 0 := by decide

theorem mixE10 : ∀ x < 256, mul9 (xtime x) ^^^ mul14 x ^^^ mul11 x ^^^ mul13 (mul3 x) = 0 := by decide

theorem mixE11 : ∀ x < 256, mul9 (mul3 x) ^^^ mul14 (xtime x) ^^^ mul11 x ^^^ mul13 x = x := by decide

theorem mixE12 : ∀ x < 256, mul9 x ^^^ mul14 (mul3 x) ^^^ mul11 (xtime x) ^^^ mul13 x = 0 := by decide

theorem mixE13 : ∀ x < 256, mul9 x ^^^ mul14 x ^^^ mul11 (mul3 x) ^^^ mul13 (xtime x) = 0 := by decide

theorem mixE20 : ∀ x < 256, mul13 (xtime x) ^^^ mul9 x ^^^ mul14 x ^^^ mul11 (mul3 x) = 0 := by decide

theorem mixE21 : ∀ x < 256, mul13 (mul3 x) ^^^ mul9 (xtime x) ^^^ mul14 x ^^^ mul11 x = 0 := by decide

theorem mixE22 : ∀ x < 256, mul13 x ^^^ mul9 (mul3 x) ^^^ mul14 (xtime x) ^^^ mul11 x = x := by decide

theorem mixE23 : ∀ x < 256, mul13 x ^^^ mul9 x ^^^ mul14 (mul3 x) ^^^ mul11 (xtime x) = 0 := by decide

theorem mixE30 : ∀ x < 256, mul11 (xtime x) ^^^ mul13 x ^^^ mul9 x ^^^ mul14 (mul3 x) = 0 := by decide

theorem mixE31 : ∀ x < 256, mul11 (mul3 x) ^^^ mul13 (xtime x) ^^^ mul9 x ^^^ mul14 x = 0 := by decide

theorem mixE32 : ∀ x < 256, mul11 x ^^^ mul13 (mul3 x) ^^^ mul9 (xtime x) ^^^ mul14 x = 0 := by decide

theorem mixE33 : ∀ x < 256, mul11 x ^^^ mul13 x ^^^ mul9 (mul3 x) ^^^ mul14 (xtime x) = x := by decide

/-- Transpose a 4×4 xor array: regroup sixteen xored terms from rows to
columns. -/
theorem xor_regroup16 (a1 a2 a3 a4 b1 b2 b3 b4 c1 c2 c3 c4 d1 d2 d3 d4 : Nat) :
    (a1 ^^^ a2 ^^^ a3 ^^^ a4) ^^^ (b1 ^^^ b2 ^^^ b3 ^^^ b4) ^^^
      (c1 ^^^ c2 ^^^ c3 ^^^ c4) ^^^ (d1 ^^^ d2 ^^^ d3 ^^^ d4) =
    (a1 ^^^ b1 ^^^ c1 ^^^ d1) ^^^ (a2 ^^^ b2 ^^^ c2 ^^^ d2) ^^^
      (a3 ^^^ b3 ^^^ c3 ^^^ d3) ^^^ (a4 ^^^ b4 ^^^ c4 ^^^ d4) := by
  ac_rfl


/-- Coordinate 0 of InvMixColumns after MixColumns on one column. -/
theorem invMix_mix_c0 (a b c d : Nat)
    (ha : a < 256) (hb : b < 256) (hc : c < 256) (hd : d < 256) :
    mul14 (xtime a ^^^ mul3 b ^^^ c ^^^ d) ^^^ mul11 (a ^^^ xtime b ^^^ mul3 c ^^^ d) ^^^ mul13 (a ^^^ b ^^^ xtime c ^^^ mul3 d) ^^^ mul9 (mul3 a ^^^ b ^^^ c ^^^ xtime d) = a := by
  simp only [mul14_xor, mul11_xor, mul13_xor, mul9_xor]
  rw [xor_regroup16, mixE00 a ha, mixE01 b hb, mixE02 c hc, mixE03 d hd]
  simp

/-- Coordinate 1 of InvMixColumns after MixColumns on one column. -/
theorem invMix_mix_c1 (a b c d : Nat)
    (ha : a < 256) (hb : b < 256) (hc : c < 256) (hd : d < 256) :
    mul9 (xtime a ^^^ mul3 b ^^^ c ^^^ d) ^^^ mul14 (a ^^^ xtime b ^^^ mul3 c ^^^ d) ^^^ mul11 (a ^^^ b ^^^ xtime c ^^^ mul3 d) ^^^ mul13 (mul3 a ^^^ b ^^^ c ^^^ xtime d) = b := by
  simp only [mul14_xor, mul11_xor, mul13_xor, mul9_xor]
  rw [xor_regroup16, mixE10 a ha, mixE11 b hb, mixE12 c hc, mixE13 d hd]
  simp

/-- Coordinate 2 of InvMixColumns after MixColumns on one column. -/
theorem invMix_mix_c2 (a b c d : Nat)
    (ha : a < 256) (hb : b < 256) (hc : c < 256) (hd : d < 256) :
    mul13 (xtime a ^^^ mul3 b ^^^ c ^^^ d) ^^^ mul9 (a ^^^ xtime b ^^^ mul3 c ^^^ d) ^^^ mul14 (a ^^^ b ^^^ xtime c ^^^ mul3 d) ^^^ mul11 (mul3 a ^^^ b ^^^ c ^^^ xtime d) = c := by
  simp only [mul14_xor, mul11_xor, mul13_xor, mul9_xor]
  rw [xor_regroup16, mixE20 a ha, mixE21 b hb, mixE22 c hc, mixE23 d hd]
  simp

/-- Coordinate 3 of InvMixColumns after MixColumns on one column. -/
theorem invMix_mix_c3 (a b c d : Nat)
    (ha : a < 256) (hb : b < 256) (hc : c < 256) (hd : d < 256) :
    mul11 (xtime a ^^^ mul3 b ^^^ c ^^^ d) ^^^ mul13 (a ^^^ xtime b ^^^ mul3 c ^^^ d) ^^^ mul9 (a ^^^ b ^^^ xtime c ^^^ mul3 d) ^^^ mul14 (mul3 a ^^^ b ^^^ c ^^^ xtime d) = d := by
  simp only [mul14_xor, mul11_xor, mul13_xor, mul9_xor]
  rw [xor_regroup16, mixE30 a ha, mixE31 b hb, mixE32 c hc, mixE33 d hd]
  simp

/-! ### Bounds and inversion of the round transformations -/

theorem getD_lt_256 (l : List Nat) (hl : ∀ x ∈ l, x < 256) (i : Nat) :
    l.getD i 0 < 256 := by
  rcases Nat.lt_or_ge i l.length with h | h
  · rw [List.getD_eq_getElem?_getD, List.getElem?_eq_getElem h]
    exact hl _ (List.getElem_mem h)
  · rw [List.getD_eq_default _ _ h]
    omega

theorem sBox_lt (b : Nat) : sBox b < 256 :=
  getD_lt_256 sBoxTable (by decide) b

theorem invSBox_sBox : ∀ b < 256, invSBox (sBox b) = b := by decide

theorem xtime_lt (x : Nat) : xtime x < 256 := by
  unfold xtime
  have := Nat.and_le_right (n := (x <<< 1) ^^^ (if x.testBit 7 then 0x1B else 0)) (m := 0xFF)
  omega

theorem mul3_lt {x : Nat} (hx : x < 256) : mul3 x < 256 :=
  xor_lt_256 (xtime_lt x) hx

theorem rconList_lt : ∀ i : Nat, rconList.getD i 0 < 256 :=
  getD_lt_256 rconList (by decide)

theorem okSt_add {s k : AesState} (hs : okSt s) (hk : okSt k) :
    okSt (addRoundKeySt s k) := by
  obtain ⟨h0, h1, h2, h3, h4, h5, h6, h7, h8, h9, h10, h11, h12, h13, h14, h15⟩ := hs
  obtain ⟨g0, g1, g2, g3, g4, g5, g6, g7, g8, g9, g10, g11, g12, g13, g14, g15⟩ := hk
  exact ⟨xor_lt_256 h0 g0, xor_lt_256 h1 g1, xor_lt_256 h2 g2, xor_lt_256 h3 g3, xor_lt_256 h4 g4, xor_lt_256 h5 g5, xor_lt_256 h6 g6, xor_lt_256 h7 g7, xor_lt_256 h8 g8, xor_lt_256 h9 g9, xor_lt_256 h10 g10, xor_lt_256 h11 g11, xor_lt_256 h12 g12, xor_lt_256 h13 g13, xor_lt_256 h14 g14, xor_lt_256 h15 g15⟩

theorem okSt_sub (s : AesState) : okSt (subBytesSt s) :=
  ⟨sBox_lt _, sBox_lt _, sBox_lt _, sBox_lt _, sBox_lt _, sBox_lt _, sBox_lt _, sBox_lt _, sBox_lt _, sBox_lt _, sBox_lt _, sBox_lt _, sBox_lt _, sBox_lt _, sBox_lt _, sBox_lt _⟩

theorem okSt_shift {s : AesState} (hs : okSt s) : okSt (shiftRowsSt s) := by
  obtain ⟨h0, h1, h2, h3, h4, h5, h6, h7, h8, h9, h10, h11, h12, h13, h14, h15⟩ := hs
  exact ⟨h0, h5, h10, h15, h4, h9, h14, h3, h8, h13, h2, h7, h12, h1, h6, h11⟩

theorem okSt_mix {s : AesState} (hs : okSt s) : okSt (mixColumnsSt s) := by
  obtain ⟨h0, h1, h2, h3, h4, h5, h6, h7, h8, h9, h10, h11, h12, h13, h14, h15⟩ := hs
  exact ⟨xor_lt_256 (xor_lt_256 (xor_lt_256 (xtime_lt _) (mul3_lt h1)) (h2)) (h3),
    xor_lt_256 (xor_lt_256 (xor_lt_256 (h0) (xtime_lt _)) (mul3_lt h2)) (h3),
    xor_lt_256 (xor_lt_256 (xor_lt_256 (h0) (h1)) (xtime_lt _)) (mul3_lt h3),
    xor_lt_256 (xor_lt_256 (xor_lt_256 (mul3_lt h0) (h1)) (h2)) (xtime_lt _),
    xor_lt_256 (xor_lt_256 (xor_lt_256 (xtime_lt _) (mul3_lt h5)) (h6)) (h7),
    xor_lt_256 (xor_lt_256 (xor_lt_256 (h4) (xtime_lt _)) (mul3_lt h6)) (h7),
    xor_lt_256 (xor_lt_256 (xor_lt_256 (h4) (h5)) (xtime_lt _)) (mul3_lt h7),
    xor_lt_256 (xor_lt_256 (xor_lt_256 (mul3_lt h4) (h5)) (h6)) (xtime_lt _),
    xor_lt_256 (xor_lt_256 (xor_lt_256 (xtime_lt _) (mul3_lt h9)) (h10)) (h11),
    xor_lt_256 (xor_lt_256 (xor_lt_256 (h8) (xtime_lt _)) (mul3_lt h10)) (h11),
    xor_lt_256 (xor_lt_256 (xor_lt_256 (h8) (h9)) (xtime_lt _)) (mul3_lt h11),
    xor_lt_256 (xor_lt_256 (xor_lt_256 (mul3_lt h8) (h9)) (h10)) (xtime_lt _),
    xor_lt_256 (xor_lt_256 (xor_lt_256 (xtime_lt _) (mul3_lt h13)) (h14)) (h15),
    xor_lt_256 (xor_lt_256 (xor_lt_256 (h12) (xtime_lt _)) (mul3_lt h14)) (h15),
    xor_lt_256 (xor_lt_256 (xor_lt_256 (h12) (h13)) (xtime_lt _)) (mul3_lt h15),
    xor_lt_256 (xor_lt_256 (xor_lt_256 (mul3_lt h12) (h13)) (h14)) (xtime_lt _)⟩

theorem okSt_nextRoundKey {rc : Nat} {k : AesState} (hrc : rc < 256)
    (hk : okSt k) : okSt (nextRoundKey rc k) := by
  obtain ⟨h0, h1, h2, h3, h4, h5, h6, h7, h8, h9, h10, h11, h12, h13, h14, h15⟩ := hk
  simp only [nextRoundKey]
  refine ⟨?_, ?_, ?_, ?_, ?_, ?_, ?_, ?_, ?_, ?_, ?_, ?_, ?_, ?_, ?_, ?_⟩
  all_goals repeat' apply xor_lt_256
  all_goals first
    | exact sBox_lt _
    | assumption

theorem okSt_roundKeyN {key : AesState} (hk : okSt key) (i : Nat) :
    okSt (roundKeyN key i) := by
  induction i with
  | zero => exact hk
  | succ i ih => exact okSt_nextRoundKey (rconList_lt i) ih

theorem addRoundKeySt_cancel (s k : AesState) :
    addRoundKeySt (addRoundKeySt s k) k = s := by
  cases s
  cases k
  simp only [addRoundKeySt]
  congr 1 <;> exact Nat.xor_cancel_right _ _

theorem invShiftRowsSt_shiftRowsSt (s : AesState) :
    invShiftRowsSt (shiftRowsSt s) = s := by
  cases s
  rfl

theorem invSubBytesSt_subBytesSt (s : AesState) (hs : okSt s) :
    invSubBytesSt (subBytesSt s) = s := by
  obtain ⟨x0, x1, x2, x3, x4, x5, x6, x7, x8, x9, x10, x11, x12, x13, x14, x15⟩ := s
  obtain ⟨h0, h1, h2, h3, h4, h5, h6, h7, h8, h9, h10, h11, h12, h13, h14, h15⟩ := hs
  simp only [subBytesSt, invSubBytesSt]
  congr 1 <;> exact invSBox_sBox _ (by assumption)

theorem invMixColumnsSt_mixColumnsSt (s : AesState) (hs : okSt s) :
    invMixColumnsSt (mixColumnsSt s) = s := by
  obtain ⟨x0, x1, x2, x3, x4, x5, x6, x7, x8, x9, x10, x11, x12, x13, x14, x15⟩ := s
  obtain ⟨h0, h1, h2, h3, h4, h5, h6, h7, h8, h9, h10, h11, h12, h13, h14, h15⟩ := hs
  simp only [mixColumnsSt, invMixColumnsSt]
  congr 1
  · exact invMix_mix_c0 x0 x1 x2 x3 h0 h1 h2 h3
  · exact invMix_mix_c1 x0 x1 x2 x3 h0 h1 h2 h3
  · exact invMix_mix_c2 x0 x1 x2 x3 h0 h1 h2 h3
  · exact invMix_mix_c3 x0 x1 x2 x3 h0 h1 h2 h3
  · exact invMix_mix_c0 x4 x5 x6 x7 h4 h5 h6 h7
  · exact invMix_mix_c1 x4 x5 x6 x7 h4 h5 h6 h7
  · exact invMix_mix_c2 x4 x5 x6 x7 h4 h5 h6 h7
  · exact invMix_mix_c3 x4 x5 x6 x7 h4 h5 h6 h7
  · exact invMix_mix_c0 x8 x9 x10 x11 h8 h9 h10 h11
  · exact invMix_mix_c1 x8 x9 x10 x11 h8 h9 h10 h11
  · exact invMix_mix_c2 x8 x9 x10 x11 h8 h9 h10 h11
  · exact invMix_mix_c3 x8 x9 x10 x11 h8 h9 h10 h11
  · exact invMix_mix_c0 x12 x13 x14 x15 h12 h13 h14 h15
  · exact invMix_mix_c1 x12 x13 x14 x15 h12 h13 h14 h15
  · exact invMix_mix_c2 x12 x13 x14 x15 h12 h13 h14 h15
  · exact invMix_mix_c3 x12 x13 x14 x15 h12 h13 h14 h15

/-- One inverse-cipher round undoes one cipher round (the state shape
`ShiftRows (SubBytes ·)` is the loop invariant of the cancellation). -/
theorem decRound_encRound (k x : AesState) (hk : okSt k) :
    decRound k (shiftRowsSt (subBytesSt (encRound k x))) =
      shiftRowsSt (subBytesSt x) := by
  unfold decRound encRound
  rw [invShiftRowsSt_shiftRowsSt,
    invSubBytesSt_subBytesSt _ (okSt_add (okSt_mix (okSt_shift (okSt_sub x))) hk),
    addRoundKeySt_cancel,
    invMixColumnsSt_mixColumnsSt _ (okSt_shift (okSt_sub x))]

/-- AES-128 block decryption inverts block encryption. -/
theorem aesDecryptSt_aesEncryptSt (key st : AesState)
    (hk : okSt key) (hst : okSt st) :
    aesDecryptSt key (aesEncryptSt key st) = st := by
  have hrk : ∀ i, okSt (roundKeyN key i) := okSt_roundKeyN hk
  unfold aesEncryptSt aesDecryptSt
  rw [addRoundKeySt_cancel,
    decRound_encRound _ _ (hrk 9), decRound_encRound _ _ (hrk 8),
    decRound_encRound _ _ (hrk 7), decRound_encRound _ _ (hrk 6),
    decRound_encRound _ _ (hrk 5), decRound_encRound _ _ (hrk 4),
    decRound_encRound _ _ (hrk 3), decRound_encRound _ _ (hrk 2),
    decRound_encRound _ _ (hrk 1),
    invShiftRowsSt_shiftRowsSt,
    invSubBytesSt_subBytesSt _ (okSt_add hst (hrk 0)),
    addRoundKeySt_cancel]

/-! ### ECB chaining and PKCS#7 padding (Node `crypto` semantics) -/

/-- Split a buffer into 16-byte cipher blocks (a shorter final group is
kept as-is; well-formed inputs are multiples of 16). -/
def chunks16 : List Nat → List (List Nat)
  | a0 :: a1 :: a2 :: a3 :: a4 :: a5 :: a6 :: a7 ::
    a8 :: a9 :: a10 :: a11 :: a12 :: a13 :: a14 :: a15 :: rest =>
      [a0, a1, a2, a3, a4, a5, a6, a7, a8, a9, a10, a11, a12, a13, a14, a15] ::
        chunks16 rest
  | [] => []
  | l => [l]

/-- PKCS#7: append `16 - len mod 16` copies of that value (always 1–16
bytes of padding). -/
def pkcs7Pad (m : List Nat) : List Nat :=
  m ++ List.replicate (16 - m.length % 16) (16 - m.length % 16)

/-- PKCS#7 removal as `decipher.final()` performs it: the last byte
names the padding length, which must be 1–16 and replicated over the
tail; `none` models the `bad decrypt` throw. -/
def pkcs7Unpad (m : List Nat) : Option (List Nat) :=
  match m.getLast? with
  | none => none
  | some p =>
    if 1 ≤ p ∧ p ≤ 16 ∧ p ≤ m.length ∧ (m.drop (m.length - p)).all (· == p) then
      some (m.take (m.length - p))
    else none

/-- Encrypt one 16-byte block. -/
def encBlock (key : AesState) (b : List Nat) : List Nat :=
  ofSt (aesEncryptSt key (toSt b))

/-- Decrypt one 16-byte block. -/
def decBlock (key : AesState) (b : List Nat) : List Nat :=
  ofSt (aesDecryptSt key (toSt b))

/-- `cipher.update ‖ cipher.final` for `aes-128-ecb`: pad, then encrypt
block by block. -/
def nodeAesEncrypt (key : AesState) (data : List Nat) : List Nat :=
  (chunks16 (pkcs7Pad data)).flatMap (encBlock key)

/-- Raw ECB block decryption (before padding checks). -/
def nodeAesDecryptRaw (key : AesState) (ct : List Nat) : List Nat :=
  (chunks16 ct).flatMap (decBlock key)

/-- `decipher.update ‖ decipher.final` for `aes-128-ecb`: block-aligned
input is decrypted and PKCS#7-verified; `none` models the throw. -/
def nodeAesDecrypt (key : AesState) (ct : List Nat) : Option (List Nat) :=
  if ct.length % 16 = 0 ∧ ct ≠ [] then pkcs7Unpad (nodeAesDecryptRaw key ct)
  else none

/-- Canonical form of a 16-byte list. -/
theorem list_len16_eq (l : List Nat) (h : l.length = 16) :
    l = [l.getD 0 0, l.getD 1 0, l.getD 2 0, l.getD 3 0, l.getD 4 0, l.getD 5 0, l.getD 6 0, l.getD 7 0, l.getD 8 0, l.getD 9 0, l.getD 10 0, l.getD 11 0, l.getD 12 0, l.getD 13 0, l.getD 14 0, l.getD 15 0] := by
  rcases l with _ | ⟨y0, l⟩
  · simp only [List.length_cons, List.length_nil] at h
    omega
  rcases l with _ | ⟨y1, l⟩
  · simp only [List.length_cons, List.length_nil] at h
    omega
  rcases l with _ | ⟨y2, l⟩
  · simp only [List.length_cons, List.length_nil] at h
    omega
  rcases l with _ | ⟨y3, l⟩
  · simp only [List.length_cons, List.length_nil] at h
    omega
  rcases l with _ | ⟨y4, l⟩
  · simp only [List.length_cons, List.length_nil] at h
    omega
  rcases l with _ | ⟨y5, l⟩
  · simp only [List.length_cons, List.length_nil] at h
    omega
  rcases l with _ | ⟨y6, l⟩
  · simp only [List.length_cons, List.length_nil] at h
    omega
  rcases l with _ | ⟨y7, l⟩
  · simp only [List.length_cons, List.length_nil] at h
    omega
  rcases l with _ | ⟨y8, l⟩
  · simp only [List.length_cons, List.length_nil] at h
    omega
  rcases l with _ | ⟨y9, l⟩
  · simp only [List.length_cons, List.length_nil] at h
    omega
  rcases l with _ | ⟨y10, l⟩
  · simp only [List.length_cons, List.length_nil] at h
    omega
  rcases l with _ | ⟨y11, l⟩
  · simp only [List.length_cons, List.length_nil] at h
    omega
  rcases l with _ | ⟨y12, l⟩
  · simp only [List.length_cons, List.length_nil] at h
    omega
  rcases l with _ | ⟨y13, l⟩
  · simp only [List.length_cons, List.length_nil] at h
    omega
  rcases l with _ | ⟨y14, l⟩
  · simp only [List.length_cons, List.length_nil] at h
    omega
  rcases l with _ | ⟨y15, l⟩
  · simp only [List.length_cons, List.length_nil] at h
    omega
  rcases l with _ | ⟨y16, l⟩
  · rfl
  · simp only [List.length_cons, List.length_nil] at h
    omega

theorem toSt_ofSt (s : AesState) : toSt (ofSt s) = s := by
  cases s
  rfl

theorem ofSt_toSt (l : List Nat) (h : l.length = 16) : ofSt (toSt l) = l := by
  conv_rhs => rw [list_len16_eq l h]
  rfl

theorem okSt_toSt (l : List Nat) (hl : ∀ x ∈ l, x < 256) : okSt (toSt l) :=
  ⟨getD_lt_256 l hl 0, getD_lt_256 l hl 1, getD_lt_256 l hl 2, getD_lt_256 l hl 3,
   getD_lt_256 l hl 4, getD_lt_256 l hl 5, getD_lt_256 l hl 6, getD_lt_256 l hl 7,
   getD_lt_256 l hl 8, getD_lt_256 l hl 9, getD_lt_256 l hl 10, getD_lt_256 l hl 11,
   getD_lt_256 l hl 12, getD_lt_256 l hl 13, getD_lt_256 l hl 14, getD_lt_256 l hl 15⟩

theorem ofSt_length (s : AesState) : (ofSt s).length = 16 := rfl

theorem encBlock_length (key : AesState) (b : List Nat) :
    (encBlock key b).length = 16 := rfl

theorem ofSt_mem_lt (s : AesState) (hs : okSt s) : ∀ x ∈ ofSt s, x < 256 := by
  obtain ⟨h0, h1, h2, h3, h4, h5, h6, h7, h8, h9, h10, h11, h12, h13, h14, h15⟩ := hs
  intro x hx
  simp only [ofSt, List.mem_cons, List.not_mem_nil, or_false] at hx
  rcases hx with rfl | rfl | rfl | rfl | rfl | rfl | rfl | rfl |
    rfl | rfl | rfl | rfl | rfl | rfl | rfl | rfl <;> assumption

/-- One-block round trip at the byte-list level. -/
theorem decBlock_encBlock (key : AesState) (hk : okSt key) (b : List Nat)
    (hlen : b.length = 16) (hb : ∀ x ∈ b, x < 256) :
    decBlock key (encBlock key b) = b := by
  unfold decBlock encBlock
  rw [toSt_ofSt, aesDecryptSt_aesEncryptSt key _ hk (okSt_toSt b hb), ofSt_toSt b hlen]

theorem chunks16_cons16 (b rest : List Nat) (hb : b.length = 16) :
    chunks16 (b ++ rest) = b :: chunks16 rest := by
  conv_lhs => rw [list_len16_eq b hb]
  conv_rhs => rw [list_len16_eq b hb]
  rfl

/-- ECB round trip plus length preservation on block-aligned data. -/
theorem ecb_roundtrip (key : AesState) (hk : okSt key) :
    ∀ n : Nat, ∀ data : List Nat, data.length = 16 * n → (∀ x ∈ data, x < 256) →
    nodeAesDecryptRaw key ((chunks16 data).flatMap (encBlock key)) = data ∧
      ((chunks16 data).flatMap (encBlock key)).length = data.length := by
  intro n
  induction n with
  | zero =>
    intro data hlen _
    have : data = [] := List.eq_nil_of_length_eq_zero (by omega)
    subst this
    exact ⟨rfl, rfl⟩
  | succ n ih =>
    intro data hlen hdata
    have hsplit : data.take 16 ++ data.drop 16 = data := List.take_append_drop 16 data
    have htlen : (data.take 16).length = 16 := by
      rw [List.length_take]
      omega
    have hdlen : (data.drop 16).length = 16 * n := by
      rw [List.length_drop]
      omega
    have htmem : ∀ x ∈ data.take 16, x < 256 := fun x hx =>
      hdata x (List.mem_of_mem_take hx)
    have hdmem : ∀ x ∈ data.drop 16, x < 256 := fun x hx =>
      hdata x (List.mem_of_mem_drop hx)
    obtain ⟨ihdec, ihlen⟩ := ih (data.drop 16) hdlen hdmem
    constructor
    · conv_lhs => rw [← hsplit]
      rw [chunks16_cons16 _ _ htlen]
      show nodeAesDecryptRaw key
        (encBlock key (data.take 16) ++ (chunks16 (data.drop 16)).flatMap (encBlock key)) = _
      unfold nodeAesDecryptRaw
      rw [chunks16_cons16 _ _ (encBlock_length key (data.take 16))]
      show decBlock key (encBlock key (data.take 16)) ++
        (chunks16 ((chunks16 (data.drop 16)).flatMap (encBlock key))).flatMap (decBlock key) = data
      rw [decBlock_encBlock key hk _ htlen htmem]
      have : (chunks16 ((chunks16 (data.drop 16)).flatMap (encBlock key))).flatMap (decBlock key) =
          data.drop 16 := ihdec
      rw [this, hsplit]
    · conv_lhs => rw [← hsplit]
      rw [chunks16_cons16 _ _ htlen]
      show (encBlock key (data.take 16) ++ (chunks16 (data.drop 16)).flatMap (encBlock key)).length =
        data.length
      rw [List.length_append, encBlock_length, ihlen]
      omega

/-- Removing PKCS#7 padding undoes adding it. -/
theorem pkcs7Unpad_pkcs7Pad (m : List Nat) : pkcs7Unpad (pkcs7Pad m) = some m := by
  set p := 16 - m.length % 16 with hp
  have hp1 : 1 ≤ p := by
    have := Nat.mod_lt m.length (y := 16) (by omega)
    omega
  have hp16 : p ≤ 16 := by omega
  have hlast : (pkcs7Pad m).getLast? = some p := by
    unfold pkcs7Pad
    rw [List.getLast?_append, List.getLast?_replicate]
    rw [if_neg (by omega)]
    rfl
  have hlen : (pkcs7Pad m).length = m.length + p := by
    unfold pkcs7Pad
    rw [List.length_append, List.length_replicate]
  unfold pkcs7Unpad
  rw [hlast]
  show (if 1 ≤ p ∧ p ≤ 16 ∧ p ≤ (pkcs7Pad m).length ∧
      ((pkcs7Pad m).drop ((pkcs7Pad m).length - p)).all (· == p) then
    some ((pkcs7Pad m).take ((pkcs7Pad m).length - p)) else none) = some m
  rw [if_pos ?cond]
  case cond =>
    refine ⟨hp1, hp16, by omega, ?_⟩
    have hdrop : (pkcs7Pad m).drop ((pkcs7Pad m).length - p) = List.replicate p p := by
      rw [hlen, Nat.add_sub_cancel]
      unfold pkcs7Pad
      exact List.drop_left _ _
    rw [hdrop, List.all_eq_true]
    intro x hx
    rcases (List.mem_replicate.mp hx) with ⟨_, rfl⟩
    simp
  · rw [hlen, Nat.add_sub_cancel]
    unfold pkcs7Pad
    rw [List.take_left]

/-- `decipher(cipher(data)) = data` at the Node API level: the cipher
output is block-aligned and nonempty, its raw ECB decryption returns
the padded plaintext, and the padding check strips exactly the pad. -/
theorem nodeAesDecrypt_nodeAesEncrypt (key : AesState) (hk : okSt key)
    (data : List Nat) (hd : ∀ x ∈ data, x < 256) :
    nodeAesDecrypt key (nodeAesEncrypt key data) = some data := by
  set p := 16 - data.length % 16 with hp
  have hp1 : 1 ≤ p := by
    have := Nat.mod_lt data.length (y := 16) (by omega)
    omega
  have hpadlen : (pkcs7Pad data).length = 16 * (data.length / 16 + 1) := by
    unfold pkcs7Pad
    rw [List.length_append, List.length_replicate]
    have := Nat.div_add_mod data.length 16
    omega
  have hpadmem : ∀ x ∈ pkcs7Pad data, x < 256 := by
    intro x hx
    unfold pkcs7Pad at hx
    rcases List.mem_append.mp hx with h | h
    · exact hd x h
    · rcases List.mem_replicate.mp h with ⟨_, rfl⟩
      omega
  obtain ⟨hdec, hlen⟩ := ecb_roundtrip key hk (data.length / 16 + 1) (pkcs7Pad data)
    hpadlen hpadmem
  unfold nodeAesEncrypt nodeAesDecrypt
  rw [if_pos ?cond]
  case cond =>
    constructor
    · rw [hlen, hpadlen]
      omega
    · intro hnil
      have := congrArg List.length hnil
      rw [hlen, hpadlen] at this
      simp at this
  · rw [hdec, pkcs7Unpad_pkcs7Pad]

/-! ## MD5 (RFC 1321), as `crypto.createHash('md5')`

`TuyaStreamDecoder.sendStreamRequest` derives its session key as
`md5(localKey + 'stream')`; the hash itself is Node library code, so it
is modelled here directly from RFC 1321 (little-endian words, 64
rounds), validated by the `md5_rfc_vector` known-answer tests. -/

/-- Little-endian 4-byte encoding of a 32-bit word. -/
def le32 (n : Nat) : List Nat :=
  [n % 256, (n >>> 8) % 256, (n >>> 16) % 256, (n >>> 24) % 256]

/-- The 64 MD5 sine-table constants. -/
def md5K : List Nat := [
  0xd76aa478, 0xe8c7b756, 0x242070db, 0xc1bdceee,
  0xf57c0faf, 0x4787c62a, 0xa8304613, 0xfd469501,
  0x698098d8, 0x8b44f7af, 0xffff5bb1, 0x895cd7be,
  0x6b901122, 0xfd987193, 0xa679438e, 0x49b40821,
  0xf61e2562, 0xc040b340, 0x265e5a51, 0xe9b6c7aa,
  0xd62f105d, 0x02441453, 0xd8a1e681, 0xe7d3fbc8,
  0x21e1cde6, 0xc33707d6, 0xf4d50d87, 0x455a14ed,
  0xa9e3e905, 0xfcefa3f8, 0x676f02d9, 0x8d2a4c8a,
  0xfffa3942, 0x8771f681, 0x6d9d6122, 0xfde5380c,
  0xa4beea44, 0x4bdecfa9, 0xf6bb4b60, 0xbebfbc70,
  0x289b7ec6, 0xeaa127fa, 0xd4ef3085, 0x04881d05,
  0xd9d4d039, 0xe6db99e5, 0x1fa27cf8, 0xc4ac5665,
  0xf4292244, 0x432aff97, 0xab9423a7, 0xfc93a039,
  0x655b59c3, 0x8f0ccc92, 0xffeff47d, 0x85845dd1,
  0x6fa87e4f, 0xfe2ce6e0, 0xa3014314, 0x4e0811a1,
  0xf7537e82, 0xbd3af235, 0x2ad7d2bb, 0xeb86d391]

/-- The 64 MD5 per-round left-rotation amounts. -/
def md5S : List Nat := [
  7, 12, 17, 22, 7, 12, 17, 22, 7, 12, 17, 22, 7, 12, 17, 22,
  5, 9, 14, 20, 5, 9, 14, 20, 5, 9, 14, 20, 5, 9, 14, 20,
  4, 11, 16, 23, 4, 11, 16, 23, 4, 11, 16, 23, 4, 11, 16, 23,
  6, 10, 15, 21, 6, 10, 15, 21, 6, 10, 15, 21, 6, 10, 15, 21]

/-- 32-bit left rotation (operand below `2^32`). -/
def rotl32 (x c : Nat) : Nat :=
  ((x <<< c) % 2 ^ 32) ||| (x >>> (32 - c))

/-- Little-endian word `j` of a 64-byte chunk. -/
def md5Word (chunk : List Nat) (j : Nat) : Nat :=
  chunk.getD (4 * j) 0 + chunk.getD (4 * j + 1) 0 * 2 ^ 8 +
    chunk.getD (4 * j + 2) 0 * 2 ^ 16 + chunk.getD (4 * j + 3) 0 * 2 ^ 24

/-- One MD5 round on state `(A, B, C, D)`. -/
def md5Step (chunk : List Nat) (st : Nat × Nat × Nat × Nat) (i : Nat) :
    Nat × Nat × Nat × Nat :=
  match st with
  | (A, B, C, D) =>
    let F :=
      if i < 16 then (B &&& C) ||| ((B ^^^ 0xFFFFFFFF) &&& D)
      else if i < 32 then (D &&& B) ||| ((D ^^^ 0xFFFFFFFF) &&& C)
      else if i < 48 then B ^^^ C ^^^ D
      else C ^^^ (B ||| (D ^^^ 0xFFFFFFFF))
    let g :=
      if i < 16 then i
      else if i < 32 then (5 * i + 1) % 16
      else if i < 48 then (3 * i + 5) % 16
      else (7 * i) % 16
    let F2 := (F + A + md5K.getD i 0 + md5Word chunk g) % 2 ^ 32
    (D, (B + rotl32 F2 (md5S.getD i 0)) % 2 ^ 32, B, C)

/-- Process one 64-byte chunk. -/
def md5Chunk (st : Nat × Nat × Nat × Nat) (chunk : List Nat) :
    Nat × Nat × Nat × Nat :=
  match (List.range 64).foldl (md5Step chunk) st, st with
  | (a, b, c, d), (a0, b0, c0, d0) =>
    ((a0 + a) % 2 ^ 32, (b0 + b) % 2 ^ 32, (c0 + c) % 2 ^ 32, (d0 + d) % 2 ^ 32)

/-- Split into 64-byte chunks (fuel keeps the recursion structural; a
fuel of the buffer length is never exhausted). -/
def chunks64F : Nat → List Nat → List (List Nat)
  | 0, _ => []
  | _ + 1, [] => []
  | f + 1, l => l.take 64 :: chunks64F f (l.drop 64)

/-- Split a buffer into 64-byte chunks. -/
def chunks64 (l : List Nat) : List (List Nat) :=
  chunks64F l.length l

/-- The 8-byte little-endian bit-length trailer. -/
def md5LenBytes (bitLen : Nat) : List Nat :=
  [bitLen % 256, (bitLen >>> 8) % 256, (bitLen >>> 16) % 256, (bitLen >>> 24) % 256,
   (bitLen >>> 32) % 256, (bitLen >>> 40) % 256, (bitLen >>> 48) % 256, (bitLen >>> 56) % 256]

/-- MD5 padding: a `0x80` byte, zeros to 56 mod 64, then the bit
length. -/
def md5Pad (msg : List Nat) : List Nat :=
  msg ++ 0x80 :: List.replicate ((119 - msg.length % 64) % 64) 0 ++
    md5LenBytes (msg.length * 8)

/-- The MD5 digest of a byte sequence: 16 bytes. -/
def md5 (msg : List Nat) : List Nat :=
  match (chunks64 (md5Pad msg)).foldl md5Chunk
      (0x67452301, 0xefcdab89, 0x98badcfe, 0x10325476) with
  | (a, b, c, d) => le32 a ++ le32 b ++ le32 c ++ le32 d

/-- RFC 1321 test vectors: MD5 of the empty string and of "abc". -/
theorem md5_rfc_vector :
    md5 [] = [0xd4, 0x1d, 0x8c, 0xd9, 0x8f, 0x00, 0xb2, 0x04,
              0xe9, 0x80, 0x09, 0x98, 0xec, 0xf8, 0x42, 0x7e] ∧
    md5 [0x61, 0x62, 0x63] = [0x90, 0x01, 0x50, 0x98, 0x3c, 0xd2, 0x4f, 0xb0,
              0xd6, 0x96, 0x3f, 0x7d, 0x28, 0xe1, 0x7f, 0x72] := by
  constructor <;> decide

/-! ## The repository's cipher entry points

`TuyaStreamDecoder.sendStreamRequest` derives
`this.sessionKey = md5(localKey + 'stream')` before encrypting;
`encryptPayload`/`decryptPayload` key on
`this.sessionKey || Buffer.from(localKey)`, and `decryptPayload`
returns the raw bytes when decryption throws («some cameras send
unencrypted video data»).  `TuyaDevice.sendCommand`/`handleData`
(control connection) pass `this.localKey` directly to
`createCipheriv`/`createDecipheriv`. -/

/-- The UTF-8 bytes of the string `stream`. -/
def streamSuffix : List Nat := [0x73, 0x74, 0x72, 0x65, 0x61, 0x6d]

/-- The stream connection's session key:
`md5(localKey + 'stream')` (sendStreamRequest). -/
def streamSessionKey (localKey : List Nat) : List Nat :=
  md5 (localKey ++ streamSuffix)

/-- `TuyaStreamDecoder.encryptPayload`. -/
def encryptPayload (sessionKey : Option (List Nat)) (localKey data : List Nat) :
    List Nat :=
  nodeAesEncrypt (toSt (sessionKey.getD localKey)) data

/-- `TuyaStreamDecoder.decryptPayload`, including the plaintext
fallback in its `catch`. -/
def decryptPayload (sessionKey : Option (List Nat)) (localKey data : List Nat) :
    List Nat :=
  match nodeAesDecrypt (toSt (sessionKey.getD localKey)) data with
  | some m => m
  | none => data

/-- The control connection's payload encryption (`sendCommand`, version
3.3 branch): raw local key. -/
def controlEncrypt (localKey data : List Nat) : List Nat :=
  nodeAesEncrypt (toSt localKey) data

/-- The control connection's payload decryption (`handleData`): raw
local key; `none` models the caught decrypt failure (frame dropped). -/
def controlDecrypt (localKey data : List Nat) : Option (List Nat) :=
  nodeAesDecrypt (toSt localKey) data

/-- The MD5 digest always has 16 bytes. -/
theorem md5_length (msg : List Nat) : (md5 msg).length = 16 := by
  unfold md5
  rcases (chunks64 (md5Pad msg)).foldl md5Chunk
    (0x67452301, 0xefcdab89, 0x98badcfe, 0x10325476) with ⟨a, b, c, d⟩
  rfl

/-! ## Claim theorems -/

/-- C1.  The frame round-trip FAILS on the code: `buildPacket` writes
command at offset 4, sequence at offset 8 and length at offset 12,
while `handleData` reads command at offset 8, sequence at offset 12 and
length at offset 16.  Encoding command 1, sequence 2 and an 8-byte
payload whose first word is 9 parses back as command 2 (the encoded
sequence), sequence 16 (the encoded length field) and length 9 (payload
bytes); with an empty payload the parser refuses the encoder's own
frame outright; the stream scanner misparses the same layout, cutting a
29-byte packet out of the 32-byte frame. -/
theorem c1_parse_encode_mismatch :
    handleDataParse (buildPacket 1 2 [0, 0, 0, 9, 0, 0, 0, 0]) = some (2, 16, 9, [0]) ∧
    handleDataParse (buildPacket 1 2 []) = none ∧
    (streamBuildPacket 0xD1 2 [0, 0, 0, 9, 0, 0, 0, 0]).length = 32 ∧
    scanLoop (streamBuildPacket 0xD1 2 [0, 0, 0, 9, 0, 0, 0, 0]) =
      some ((streamBuildPacket 0xD1 2 [0, 0, 0, 9, 0, 0, 0, 0]).drop 29,
        [(streamBuildPacket 0xD1 2 [0, 0, 0, 9, 0, 0, 0, 0]).take 29]) := by
  refine ⟨by decide, by decide, by decide, by decide⟩

/-- C2.  The stream scan is NOT throw-free: 16 garbage bytes followed
by a bare magic header resynchronize to an occurrence with only 4 bytes
left, and the un-re-checked `readUInt32BE(8)` throws (`none`),
terminating the session.  When at least a full header remains after
resynchronizing, the scan does recover: garbage followed by one
complete well-formed frame yields exactly that frame. -/
theorem c2_scan_throws_after_resync :
    handleStreamData [] (List.replicate 16 0 ++ magicHeader) = none ∧
    handleStreamData []
      ([7, 7, 7] ++ (magicHeader ++ [1, 2, 3, 4] ++ be32 0xD1 ++ be32 7 ++ be32 8 ++
        [9, 9, 9, 9, 8, 8, 8, 8])) =
      some ([], [magicHeader ++ [1, 2, 3, 4] ++ be32 0xD1 ++ be32 7 ++ be32 8 ++
        [9, 9, 9, 9, 8, 8, 8, 8]]) := by
  refine ⟨by decide, by decide⟩

/-- C4.  Command-timeout cleanup FAILS on the code: the 5-second
timeout handler only rejects the promise; the once-listener keyed by
the command's sequence stays registered.  After a single command
(assigned sequence 1) from a fresh session times out, the pending
registry still holds the entry `(1, callId)`. -/
theorem c4_timeout_leaks_registration :
    (∀ st : CtrlState, commandTimeoutStep st = st) ∧
    (commandTimeoutStep (sendCommandStep ⟨0, []⟩ 7).1).pending = [(1, 7)] := by
  exact ⟨fun _ => rfl, rfl⟩

/-- C6.  Checksum engine: the control connection's bitwise CRC and the
stream connection's table-driven CRC are the same pure function of the
input bytes, both are CRC-32/ISO-HDLC (polynomial 0xEDB88320,
reflected, init and final xor 0xFFFFFFFF): the empty input hashes to 0
and ASCII "123456789" to 0xCBF43926. -/
theorem c6_checksum_engine :
    (∀ data : List Nat, (∀ b ∈ data, b < 256) → calculateCRC data = calculateCRC32 data) ∧
    calculateCRC [] = 0 ∧ calculateCRC32 [] = 0 ∧
    calculateCRC [49, 50, 51, 52, 53, 54, 55, 56, 57] = 0xCBF43926 ∧
    calculateCRC32 [49, 50, 51, 52, 53, 54, 55, 56, 57] = 0xCBF43926 :=
  ⟨calculateCRC_eq_calculateCRC32, by decide, by decide, by decide, by decide⟩

/-- Witness for C6 at a concrete byte list. -/
theorem c6_checksum_engine_witness :
    (∀ b ∈ [0, 1, 127, 255], b < 256) ∧ calculateCRC [0, 1, 127, 255] = calculateCRC32 [0, 1, 127, 255] :=
  ⟨by decide, c6_checksum_engine.1 [0, 1, 127, 255] (by decide)⟩

/-- C7.  Cipher round-trip: with a 16-byte key (the session key when
set, else the raw local key — exactly the `this.sessionKey ||
localKey` choice of the source) and any byte plaintext, decrypting the
encryption returns the plaintext: AES-128-ECB with PKCS#7 padding
applied on encryption and verified/stripped on decryption. -/
theorem c7_cipher_roundtrip (sessionKey : Option (List Nat)) (localKey data : List Nat)
    (_hklen : (sessionKey.getD localKey).length = 16)
    (hkb : ∀ x ∈ sessionKey.getD localKey, x < 256)
    (hdb : ∀ x ∈ data, x < 256) :
    decryptPayload sessionKey localKey (encryptPayload sessionKey localKey data) = data := by
  unfold decryptPayload encryptPayload
  rw [nodeAesDecrypt_nodeAesEncrypt _ (okSt_toSt _ hkb) _ hdb]

/-- Witness for C7: a concrete 16-byte key and 5-byte plaintext. -/
theorem c7_cipher_roundtrip_witness :
    ([48, 49, 50, 51, 52, 53, 54, 55, 56, 57, 97, 98, 99, 100, 101, 102] : List Nat).length = 16 ∧
    decryptPayload none [48, 49, 50, 51, 52, 53, 54, 55, 56, 57, 97, 98, 99, 100, 101, 102]
      (encryptPayload none [48, 49, 50, 51, 52, 53, 54, 55, 56, 57, 97, 98, 99, 100, 101, 102]
        [104, 101, 108, 108, 111]) = [104, 101, 108, 108, 111] :=
  ⟨by decide,
   c7_cipher_roundtrip none [48, 49, 50, 51, 52, 53, 54, 55, 56, 57, 97, 98, 99, 100, 101, 102]
     [104, 101, 108, 108, 111] (by decide) (by decide) (by decide)⟩

/-- C8.  Session-key derivation: the stream connection encrypts and
decrypts under `md5(localKey + 'stream')` — a 16-byte digest — once
`sendStreamRequest` has set it, while the control connection passes the
raw local key to the cipher; neither path uses the other's key. -/
theorem c8_key_derivation (localKey data : List Nat) :
    streamSessionKey localKey = md5 (localKey ++ streamSuffix) ∧
    (streamSessionKey localKey).length = 16 ∧
    encryptPayload (some (streamSessionKey localKey)) localKey data =
      nodeAesEncrypt (toSt (md5 (localKey ++ streamSuffix))) data ∧
    decryptPayload (some (streamSessionKey localKey)) localKey data =
      (match nodeAesDecrypt (toSt (md5 (localKey ++ streamSuffix))) data with
        | some m => m
        | none => data) ∧
    controlEncrypt localKey data = nodeAesEncrypt (toSt localKey) data ∧
    controlDecrypt localKey data = nodeAesDecrypt (toSt localKey) data :=
  ⟨rfl, md5_length _, rfl, rfl, rfl, rfl⟩

/-- C3.  Command/response correlation: from any session state whose
pending keys do not exceed the counter (every registration ever made
uses the just-incremented counter, so this is invariant), two
back-to-back `sendCommand`s are assigned sequences `N = counter + 1`
and `N + 1`, and delivering the two responses out of order resolves
call `b` with its own payload first, then call `a` with its own —
each pending call matched by its own sequence key. -/
theorem c3_command_correlation (st : CtrlState) (a b pA pB : Nat)
    (hfresh : ∀ e ∈ st.pending, e.1 ≤ st.sequence) :
    (sendCommandStep st a).2 = st.sequence + 1 ∧
    (sendCommandStep (sendCommandStep st a).1 b).2 = (sendCommandStep st a).2 + 1 ∧
    (deliverResponse (sendCommandStep (sendCommandStep st a).1 b).1
      (st.sequence + 2) pB).2 = [(b, pB)] ∧
    (deliverResponse
      (deliverResponse (sendCommandStep (sendCommandStep st a).1 b).1
        (st.sequence + 2) pB).1
      (st.sequence + 1) pA).2 = [(a, pA)] := by
  refine ⟨rfl, rfl, ?_, ?_⟩
  · show ((((st.pending ++ [(st.sequence + 1, a)]) ++ [(st.sequence + 2, b)]).filter
      fun e => e.1 == st.sequence + 2).map fun e => (e.2, pB)) = [(b, pB)]
    rw [List.filter_append, List.filter_append]
    rw [List.filter_eq_nil_iff.mpr ?fr]
    case fr =>
      intro e he hkey
      have := hfresh e he
      have : e.1 = st.sequence + 2 := by
        simpa using hkey
      omega
    simp
  · show ((((((st.pending ++ [(st.sequence + 1, a)]) ++ [(st.sequence + 2, b)]).filter
      fun e => e.1 != st.sequence + 2).filter
      fun e => e.1 == st.sequence + 1).map fun e => (e.2, pA)) = [(a, pA)])
    rw [List.filter_append, List.filter_append, List.filter_append, List.filter_append]
    rw [List.filter_eq_nil_iff.mpr ?fr2]
    case fr2 =>
      intro e he hkey
      have h1 : (e.1 != st.sequence + 2) = true := by
        rcases List.mem_filter.mp he with ⟨_, h⟩
        exact h
      have h2 := hfresh e (List.mem_filter.mp he).1
      have : e.1 = st.sequence + 1 := by simpa using hkey
      omega
    simp

/-- Witness for C3 from the fresh session state. -/
theorem c3_command_correlation_witness :
    (∀ e ∈ (CtrlState.mk 0 []).pending, e.1 ≤ (CtrlState.mk 0 []).sequence) ∧
    (deliverResponse
      (deliverResponse (sendCommandStep (sendCommandStep ⟨0, []⟩ 100).1 200).1
        2 6).1
      1 5).2 = [(100, 5)] := by
  refine ⟨by simp, ?_⟩
  exact (c3_command_correlation ⟨0, []⟩ 100 200 5 6 (by simp)).2.2.2

/-- C9.  Motion-event lifecycle: whenever any trace of inbound parsed
payloads contains a status push (command 8) at time `t` whose `dps`
carries data point 115, the emitted events include `motion true` at `t`
and `motion false` at exactly `t + 30`, no matter what other input the
trace contains — the `setTimeout` clear is unconditional and never
cancelled. -/
theorem c9_motion_lifecycle (trace : List (Nat × Nat × Nat × ParsedPayload))
    (t seq : Nat) (p : ParsedPayload)
    (hmem : (t, 8, seq, p) ∈ trace) (hdp : hasMotionDP p = true) :
    (t, CtrlEvent.motion true) ∈ processTrace trace ∧
    (t + 30, CtrlEvent.motion false) ∈ processTrace trace := by
  have hsome : p.dps.isSome := by
    unfold hasMotionDP at hdp
    cases hp : p.dps with
    | none => rw [hp] at hdp; simp at hdp
    | some l => simp [hp]
  have hcond : (8 = 8 ∧ p.dps.isSome = true ∧ hasMotionDP p = true) := ⟨rfl, hsome, hdp⟩
  constructor
  · apply List.mem_flatMap.mpr
    refine ⟨(t, 8, seq, p), hmem, ?_⟩
    unfold handlePayloadEvents
    rw [if_pos hcond]
    simp
  · apply List.mem_flatMap.mpr
    refine ⟨(t, 8, seq, p), hmem, ?_⟩
    unfold handlePayloadEvents
    rw [if_pos hcond]
    simp

/-- Witness for C9: a trace with further device input after the
motion push. -/
theorem c9_motion_lifecycle_witness :
    ((5, 8, 1, ParsedPayload.mk (some [(115, true)])) ∈
      [((5 : Nat), (8 : Nat), (1 : Nat), ParsedPayload.mk (some [(115, true)])),
       (9, 8, 2, ParsedPayload.mk (some [(103, false)])),
       (12, 10, 3, ParsedPayload.mk none)]) ∧
    (35, CtrlEvent.motion false) ∈ processTrace
      [((5 : Nat), (8 : Nat), (1 : Nat), ParsedPayload.mk (some [(115, true)])),
       (9, 8, 2, ParsedPayload.mk (some [(103, false)])),
       (12, 10, 3, ParsedPayload.mk none)] := by
  refine ⟨by decide, ?_⟩
  exact (c9_motion_lifecycle _ 5 1 (ParsedPayload.mk (some [(115, true)]))
    (by decide) (by decide)).2

/-- C10.  The control connection's inbound handler examines each
socket-read chunk in isolation (it owns no buffer): chunks shorter
than 20 bytes, chunks not starting with the magic header, and chunks
not containing the full frame announced by the length field at offset
16 are discarded whole with no event; otherwise exactly the one frame
at offset 0 is parsed, and bytes past `20 + length` in the same chunk
are ignored (parsing the truncated chunk gives the same result). -/
theorem c10_chunk_isolation (c : List Nat) :
    (c.length < 20 → handleDataParse c = none) ∧
    (c.take 4 ≠ magicHeader → handleDataParse c = none) ∧
    (20 ≤ c.length → c.take 4 = magicHeader → c.length < 20 + be32At c 16 →
      handleDataParse c = none) ∧
    (20 ≤ c.length → c.take 4 = magicHeader → 20 + be32At c 16 ≤ c.length →
      handleDataParse c =
        some (be32At c 8, be32At c 12, be32At c 16, (c.drop 20).take (be32At c 16 - 8)) ∧
      handleDataParse c = handleDataParse (c.take (20 + be32At c 16))) := by
  refine ⟨?_, ?_, ?_, ?_⟩
  · intro h
    unfold handleDataParse
    rw [if_pos h]
  · intro h
    unfold handleDataParse
    by_cases h20 : c.length < 20
    · rw [if_pos h20]
    · rw [if_neg h20, if_pos h]
  · intro h20 hm hlen
    unfold handleDataParse
    rw [if_neg (by omega), if_neg (by simp [hm]), if_pos hlen]
  · intro h20 hm hlen
    have hparse : handleDataParse c =
        some (be32At c 8, be32At c 12, be32At c 16, (c.drop 20).take (be32At c 16 - 8)) := by
      unfold handleDataParse
      rw [if_neg (by omega), if_neg (by simp [hm]), if_neg (by omega)]
    refine ⟨hparse, ?_⟩
    have htlen : (c.take (20 + be32At c 16)).length = 20 + be32At c 16 := by
      rw [List.length_take]
      omega
    have htm : (c.take (20 + be32At c 16)).take 4 = magicHeader := by
      rw [take_four_of_take c (20 + be32At c 16) (by omega)]
      exact hm
    have ht16 : be32At (c.take (20 + be32At c 16)) 16 = be32At c 16 :=
      be32At_take c (20 + be32At c 16) 16 (by omega)
    have ht8 : be32At (c.take (20 + be32At c 16)) 8 = be32At c 8 :=
      be32At_take c (20 + be32At c 16) 8 (by omega)
    have ht12 : be32At (c.take (20 + be32At c 16)) 12 = be32At c 12 :=
      be32At_take c (20 + be32At c 16) 12 (by omega)
    have hslice : ((c.take (20 + be32At c 16)).drop 20).take (be32At c 16 - 8) =
        (c.drop 20).take (be32At c 16 - 8) := by
      rw [List.drop_take (20 + be32At c 16) 20 c, List.take_take]
      congr 1
      omega
    have hparse2 : handleDataParse (c.take (20 + be32At c 16)) =
        some (be32At c 8, be32At c 12, be32At c 16,
          (c.drop 20).take (be32At c 16 - 8)) := by
      unfold handleDataParse
      rw [htlen, ht16, ht8, ht12]
      rw [if_neg (by omega), if_neg (by simp [htm])]
      show (if 20 + be32At c 16 < 20 + be32At c 16 then none
        else some (be32At c 8, be32At c 12, be32At c 16,
          ((c.take (20 + be32At c 16)).drop 20).take (be32At c 16 - 8))) =
        some (be32At c 8, be32At c 12, be32At c 16, (c.drop 20).take (be32At c 16 - 8))
      rw [if_neg (by omega), hslice]
    rw [hparse, hparse2]

/-- Witness for C10 at a complete 28-byte frame with 4 trailing bytes. -/
theorem c10_chunk_isolation_witness :
    (20 ≤ (magicHeader ++ [1, 2, 3, 4] ++ be32 0xD1 ++ be32 7 ++ be32 8 ++
        [9, 9, 9, 9, 8, 8, 8, 8] ++ [0, 0, 0, 0]).length ∧
      (magicHeader ++ [1, 2, 3, 4] ++ be32 0xD1 ++ be32 7 ++ be32 8 ++
        [9, 9, 9, 9, 8, 8, 8, 8] ++ [0, 0, 0, 0]).take 4 = magicHeader) ∧
    handleDataParse (magicHeader ++ [1, 2, 3, 4] ++ be32 0xD1 ++ be32 7 ++ be32 8 ++
        [9, 9, 9, 9, 8, 8, 8, 8] ++ [0, 0, 0, 0]) =
      handleDataParse ((magicHeader ++ [1, 2, 3, 4] ++ be32 0xD1 ++ be32 7 ++ be32 8 ++
        [9, 9, 9, 9, 8, 8, 8, 8] ++ [0, 0, 0, 0]).take
          (20 + be32At (magicHeader ++ [1, 2, 3, 4] ++ be32 0xD1 ++ be32 7 ++ be32 8 ++
            [9, 9, 9, 9, 8, 8, 8, 8] ++ [0, 0, 0, 0]) 16)) :=
  ⟨⟨by decide, by decide⟩,
   ((c10_chunk_isolation _).2.2.2 (by decide) (by decide) (by decide)).2⟩

/-- C5 counterexample: a 28-byte frame that is well formed under the
parsers' layout, split at byte 14, is never parsed by the control
connection's `handleData` — neither chunk yields anything, while the
unsplit frame parses fine — because `handleData` keeps no cross-chunk
state.  This refutes the claim's «on both the stream connection's
parser and the control connection's parser». -/
theorem c5_control_split_counterexample :
    ((magicHeader ++ [1, 2, 3, 4] ++ be32 0xD1 ++ be32 7 ++ be32 8 ++
        [9, 9, 9, 9, 8, 8, 8, 8]).take 4 = magicHeader ∧
      (magicHeader ++ [1, 2, 3, 4] ++ be32 0xD1 ++ be32 7 ++ be32 8 ++
        [9, 9, 9, 9, 8, 8, 8, 8]).length =
        20 + be32At (magicHeader ++ [1, 2, 3, 4] ++ be32 0xD1 ++ be32 7 ++ be32 8 ++
          [9, 9, 9, 9, 8, 8, 8, 8]) 16) ∧
    handleDataParse ((magicHeader ++ [1, 2, 3, 4] ++ be32 0xD1 ++ be32 7 ++ be32 8 ++
      [9, 9, 9, 9, 8, 8, 8, 8]).take 14) = none ∧
    handleDataParse ((magicHeader ++ [1, 2, 3, 4] ++ be32 0xD1 ++ be32 7 ++ be32 8 ++
      [9, 9, 9, 9, 8, 8, 8, 8]).drop 14) = none ∧
    handleDataParse (magicHeader ++ [1, 2, 3, 4] ++ be32 0xD1 ++ be32 7 ++ be32 8 ++
      [9, 9, 9, 9, 8, 8, 8, 8]) = some (0xD1, 7, 8, []) := by
  refine ⟨⟨by decide, by decide⟩, by decide, by decide, by decide⟩

/-- C5 (amended).  For a frame well formed under the parsers' layout
and any split of it into nonempty chunks, the stream connection's
buffered scan yields no packet while any chunk is still missing, and
after the last chunk yields exactly the frame a single-shot feed
yields; the control connection's parser, examining chunks in
isolation, yields nothing on any proper prefix of the frame. -/
theorem c5_partial_frame_stream (F : List Nat) (hF : wfFrame F)
    (cs : List (List Nat)) (hne : cs ≠ []) (hnonempty : ∀ c ∈ cs, c ≠ [])
    (hjoin : cs.flatten = F) :
    feedChunks [] cs = some ([], [F]) ∧
    scanLoop F = some ([], [F]) ∧
    (∀ k, k < cs.length → feedChunks [] (cs.take k) = some ((cs.take k).flatten, [])) ∧
    (∀ n, n < F.length → handleDataParse (F.take n) = none) := by
  refine ⟨?_, scanLoop_whole F hF, ?_, ?_⟩
  · exact feedChunks_complete F hF cs [] hne hnonempty (by simpa using hjoin)
  · intro k hk
    have hrest : (cs.drop k).flatten ≠ [] := by
      cases hd : cs.drop k with
      | nil =>
        exfalso
        have := congrArg List.length hd
        simp only [List.length_drop, List.length_nil] at this
        omega
      | cons c t =>
        have hc : c ∈ cs := by
          have hmem : c ∈ cs.drop k := by
            rw [hd]
            exact List.mem_cons_self ..
          exact List.mem_of_mem_drop hmem
        have hcne := hnonempty c hc
        simp only [List.flatten_cons]
        intro hcontra
        exact hcne (List.append_eq_nil.mp hcontra).1
    have hfeed := feedChunks_partial F hF (cs.take k) []
      ⟨(cs.drop k).flatten, hrest, by
        rw [List.nil_append, ← List.flatten_append, List.take_append_drop, hjoin]⟩
    simpa using hfeed
  · intro n hn
    obtain ⟨hmagic, hlen⟩ := hF
    have hplen : (F.take n).length = n := by
      rw [List.length_take]
      omega
    by_cases h20 : n < 20
    · unfold handleDataParse
      rw [if_pos (by omega)]
    · unfold handleDataParse
      rw [if_neg (by omega),
        if_neg (by simp [take_four_of_take F n (by omega), hmagic]),
        if_pos (by rw [be32At_take F n 16 (by omega)]; omega)]

/-- Witness for C5 (amended): the 28-byte frame split at byte 14. -/
theorem c5_partial_frame_stream_witness :
    wfFrame (magicHeader ++ [1, 2, 3, 4] ++ be32 0xD1 ++ be32 7 ++ be32 8 ++
      [9, 9, 9, 9, 8, 8, 8, 8]) ∧
    feedChunks []
      [(magicHeader ++ [1, 2, 3, 4] ++ be32 0xD1 ++ be32 7 ++ be32 8 ++
        [9, 9, 9, 9, 8, 8, 8, 8]).take 14,
       (magicHeader ++ [1, 2, 3, 4] ++ be32 0xD1 ++ be32 7 ++ be32 8 ++
        [9, 9, 9, 9, 8, 8, 8, 8]).drop 14] =
      some ([], [magicHeader ++ [1, 2, 3, 4] ++ be32 0xD1 ++ be32 7 ++ be32 8 ++
        [9, 9, 9, 9, 8, 8, 8, 8]]) :=
  ⟨⟨by decide, by decide⟩,
   (c5_partial_frame_stream _ ⟨by decide, by decide⟩ _ (by decide)
     (by decide) (by decide)).1⟩

/-- FIPS 197 known-answer test for the AES-128 model (Appendix B /
C.1): key `000102...0f`, plaintext `00112233445566778899aabbccddeeff`,
ciphertext `69c4e0d86a7b0430d8cdb78070b4c55a`, both directions. -/
theorem aes_fips197_vector :
    aesEncryptSt
      (toSt [0x00, 0x01, 0x02, 0x03, 0x04, 0x05, 0x06, 0x07,
             0x08, 0x09, 0x0a, 0x0b, 0x0c, 0x0d, 0x0e, 0x0f])
      (toSt [0x00, 0x11, 0x22, 0x33, 0x44, 0x55, 0x66, 0x77,
             0x88, 0x99, 0xaa, 0xbb, 0xcc, 0xdd, 0xee, 0xff]) =
      toSt [0x69, 0xc4, 0xe0, 0xd8, 0x6a, 0x7b, 0x04, 0x30,
            0xd8, 0xcd, 0xb7, 0x80, 0x70, 0xb4, 0xc5, 0x5a] ∧
    aesDecryptSt
      (toSt [0x00, 0x01, 0x02, 0x03, 0x04, 0x05, 0x06, 0x07,
             0x08, 0x09, 0x0a, 0x0b, 0x0c, 0x0d, 0x0e, 0x0f])
      (toSt [0x69, 0xc4, 0xe0, 0xd8, 0x6a, 0x7b, 0x04, 0x30,
             0xd8, 0xcd, 0xb7, 0x80, 0x70, 0xb4, 0xc5, 0x5a]) =
      toSt [0x00, 0x11, 0x22, 0x33, 0x44, 0x55, 0x66, 0x77,
            0x88, 0x99, 0xaa, 0xbb, 0xcc, 0xdd, 0xee, 0xff] := by
  constructor <;> decide
